import Mathlib

/-!
Verification of the Hawk Rust error-tracking SDK (repository `rust.catcher`)
against its natural-language specification.

The repository contains two parallel implementations:
* `crates/core` + `crates/panic` — the full SDK (context manager, options,
  breadcrumbs, panic hook with context packing);
* `hawk_core` + `hawk_panic` — the earlier MVP (smaller `EventData`,
  early already-initialized guard, `send_timeout`-based flush, atomic
  idempotence flag on the panic hook).

Both are embedded below.  Definitions are direct translations of the Rust
source; stateful code is given as explicit state passing, Rust panics are
modelled with `Except`, and the bounded crossbeam channel is a capacity-
limited list together with a connected flag.
-/

namespace Hawk

/-! ## JSON values (model of `serde_json::Value`)

Objects are association lists of string keys; `serde_json::Map::insert`
overwrites the value of an existing key, which `jinsert` mirrors. -/

inductive Json where
  | str (s : String)
  | num (n : Int)
  | bool (b : Bool)
  | null
  | obj (fields : List (String × Json))
  | arr (elems : List Json)

/-- Model of `serde_json::Map::insert`: overwrite the binding of `k` if it
exists, otherwise append a new binding. -/
def jinsert (m : List (String × Json)) (k : String) (v : Json) :
    List (String × Json) :=
  match m with
  | [] => [(k, v)]
  | (k2, v2) :: rest =>
      if k2 = k then (k, v) :: rest else (k2, v2) :: jinsert rest k v

/-- Model of `serde_json::Map::get`. -/
def jlookup (m : List (String × Json)) (k : String) : Option Json :=
  match m with
  | [] => none
  | (k2, v2) :: rest => if k2 = k then some v2 else jlookup rest k

/-- Model of `HashMap<String, String>::insert` (overwrite semantics). -/
def sinsert (m : List (String × String)) (k v : String) :
    List (String × String) :=
  match m with
  | [] => [(k, v)]
  | (k2, v2) :: rest =>
      if k2 = k then (k, v) :: rest else (k2, v2) :: sinsert rest k v

/-! ## Core data types (`crates/core/src/types.rs`) -/

/-- `types.rs` `User` — all fields optional, replaced wholesale by `set_user`. -/
structure User where
  id : Option String
  name : Option String
  url : Option String
  image : Option String
deriving DecidableEq

/-- Modelled from the spec: the `Breadcrumb` type is imported by
`context.rs` from `types.rs` but its definition is not among the source
files; the spec calls it an "opaque structured entry", so it is modelled
as an opaque wrapper of a string payload. -/
structure Breadcrumb where
  data : String
deriving DecidableEq

/-- Modelled from the spec: the `MAX_BREADCRUMBS` constant is imported by
`context.rs` from `types.rs` but its definition is not among the source
files; the spec and the `context.rs` doc comments fix the ring capacity
at 50. -/
def MAX_BREADCRUMBS : Nat := 50

/-! ## ContextManager (`crates/core/src/context.rs`)

The `RwLock<Inner>` state is passed explicitly; lock poisoning cannot
occur in the sequential embedding, so the `Ok` branch of every
`read()` / `write()` is taken. -/

/-- The `Inner` state of `ContextManager`. -/
structure CtxInner where
  tags : List (String × String)
  extras : List (String × String)
  user : Option User
  breadcrumbs : List Breadcrumb
  breadcrumbsEnabled : Bool

/-- `ContextManager::new` — empty maps, capacity-50 ring. -/
def ctxNew (breadcrumbsEnabled : Bool) : CtxInner :=
  { tags := [], extras := [], user := none, breadcrumbs := [],
    breadcrumbsEnabled := breadcrumbsEnabled }

/-- `ContextManager::set_tag`. -/
def setTag (i : CtxInner) (k v : String) : CtxInner :=
  { i with tags := sinsert i.tags k v }

/-- `ContextManager::set_extra`. -/
def setExtra (i : CtxInner) (k v : String) : CtxInner :=
  { i with extras := sinsert i.extras k v }

/-- `ContextManager::set_user`. -/
def setUser (i : CtxInner) (u : User) : CtxInner :=
  { i with user := some u }

/-- `ContextManager::get_user`. -/
def getUser (i : CtxInner) : Option User :=
  i.user

/-- `ContextManager::add_breadcrumb`: no-op when disabled; when the ring
already holds `MAX_BREADCRUMBS` entries the oldest is popped before the
new entry is pushed at the back. -/
def addBreadcrumb (i : CtxInner) (b : Breadcrumb) : CtxInner :=
  if !i.breadcrumbsEnabled then i
  else
    let bs := if MAX_BREADCRUMBS ≤ i.breadcrumbs.length
      then i.breadcrumbs.tail else i.breadcrumbs
    { i with breadcrumbs := bs ++ [b] }

/-- `ContextManager::take_breadcrumbs`: `None` on an empty ring, otherwise
drains the whole ring and returns its contents in order. -/
def takeBreadcrumbs (i : CtxInner) : Option (List Breadcrumb) × CtxInner :=
  if i.breadcrumbs.isEmpty then (none, i)
  else (some i.breadcrumbs, { i with breadcrumbs := [] })

/-- Conversion of a string map to a JSON object, modelling
`serde_json::to_value(&HashMap<String, String>)`. -/
def smapToJson (m : List (String × String)) : Json :=
  Json.obj (m.map (fun kv => (kv.1, Json.str kv.2)))

/-- `ContextManager::build_context`: start from an object holding `tags`
and `extras` (each omitted when its map is empty), overlay every
top-level key of the per-event context when it is an object, and return
`None` exactly when the merged object is empty. -/
def buildContext (i : CtxInner) (eventContext : Option Json) : Option Json :=
  let ctx1 : List (String × Json) :=
    if i.tags.isEmpty then [] else jinsert [] "tags" (smapToJson i.tags)
  let ctx2 :=
    if i.extras.isEmpty then ctx1 else jinsert ctx1 "extras" (smapToJson i.extras)
  let ctx3 :=
    match eventContext with
    | some (Json.obj eventMap) =>
        eventMap.foldl (fun acc kv => jinsert acc kv.1 kv.2) ctx2
    | _ => ctx2
  if ctx3.isEmpty then none else some (Json.obj ctx3)

/-! ## Event payloads and envelopes

`crates/core/src/types.rs` defines the full `EventData`; `client.rs`
additionally reads and writes an `event.breadcrumbs` field, which is
included here.  `hawk_core/src/protocol/types.rs` defines the smaller
MVP `EventData` (title, type, backtrace, catcherVersion only). -/

/-- `types.rs` constant `CATCHER_TYPE`. -/
def CATCHER_TYPE : String := "errors/rust"

/-- `types.rs` constant `CATCHER_VERSION` (in `hawk_core` the version part
comes from `CARGO_PKG_VERSION`; the same package version 0.1.0 is used). -/
def CATCHER_VERSION : String := "hawk-rust/0.1.0"

/-- `types.rs` `BacktraceFrame`. -/
structure BacktraceFrame where
  file : Option String
  line : Option Nat
  column : Option Nat
  function : Option String
deriving DecidableEq

/-- `crates/core/src/types.rs` `EventData` (with the `breadcrumbs` field
used by `client.rs`). -/
structure EventData where
  title : String
  eventType : Option String
  backtrace : Option (List BacktraceFrame)
  release : Option String
  user : Option User
  context : Option Json
  breadcrumbs : Option (List Breadcrumb)
  catcherVersion : String

/-- `crates/core/src/types.rs` `HawkEvent` — the envelope POSTed to the
collector. -/
structure HawkEvent where
  token : String
  catcherType : String
  payload : EventData

/-- `hawk_core/src/protocol/types.rs` `EventData` (MVP: no release, user,
context or breadcrumbs fields). -/
structure HEventData where
  title : String
  eventType : Option String
  backtrace : Option (List BacktraceFrame)
  catcherVersion : String
deriving DecidableEq

/-- `hawk_core/src/protocol/types.rs` `HawkEvent`. -/
structure HHawkEvent where
  token : String
  catcherType : String
  payload : HEventData
deriving DecidableEq

/-! ## The bounded channel (crossbeam `bounded(capacity)`)

A bounded MPSC channel is modelled as a FIFO list of messages with a
fixed capacity and a connected flag (false once the receiver — the
worker thread — is gone).  `try_send` never blocks: it fails with `Full`
or `Disconnected` instead.  `send_timeout` blocks while the channel is
full; in the embedding no concurrent consumption happens during the
wait, so a full channel makes it wait out the whole timeout and fail,
while a disconnected channel makes it return immediately. -/

/-- Result of a failed `try_send` / `send_timeout`. -/
inductive SendErr where
  | full
  | disconnected
deriving DecidableEq

/-- A bounded channel holding messages of type `μ`. -/
structure Chan (μ : Type) where
  cap : Nat
  msgs : List μ
  connected : Bool

/-- `crossbeam_channel::Sender::try_send` — non-blocking enqueue. -/
def trySend {μ : Type} (q : Chan μ) (m : μ) : Chan μ × Option SendErr :=
  if !q.connected then (q, some SendErr.disconnected)
  else if q.cap ≤ q.msgs.length then (q, some SendErr.full)
  else ({ q with msgs := q.msgs ++ [m] }, none)

/-- `crossbeam_channel::Sender::send_timeout` with no concurrent consumer
activity: succeeds immediately when there is room, fails immediately when
disconnected, and otherwise blocks for the whole `timeoutMs` before
failing with `Full`.  The second component is the time (ms) the caller
was blocked. -/
def sendTimeout {μ : Type} (q : Chan μ) (m : μ) (timeoutMs : Nat) :
    (Chan μ × Option SendErr) × Nat :=
  if !q.connected then ((q, some SendErr.disconnected), 0)
  else if q.cap ≤ q.msgs.length then ((q, some SendErr.full), timeoutMs)
  else (({ q with msgs := q.msgs ++ [m] }, none), 0)

/-! ## Worker messages and the worker loop (`crates/core/src/worker.rs`,
identical in `hawk_core/src/transport/worker.rs`)

`FlushSignal` instances are identified by a number; notifying a signal
is recorded as a worker action. -/

/-- `WorkerMsg`, generic over the envelope type (both crates define the
same two variants). -/
inductive WorkerMsg (ε : Type) where
  | event (e : ε)
  | flushMarker (sig : Nat)

/-- One observable step of the worker loop. -/
inductive WorkerAction (ε : Type) where
  | sent (e : ε)
  | notified (sig : Nat)

/-- `Worker::run_loop`: drain the FIFO queue in order; an `Event` message
is handed to `Transport::send`, a `Flush` message notifies its signal.
The loop exits when the (disconnected, empty) channel yields no further
message. -/
def runLoop {ε : Type} : List (WorkerMsg ε) → List (WorkerAction ε)
  | [] => []
  | WorkerMsg.event e :: rest => WorkerAction.sent e :: runLoop rest
  | WorkerMsg.flushMarker s :: rest => WorkerAction.notified s :: runLoop rest

/-- The envelopes handed to `Transport.send` by a worker run, in order. -/
def sentEnvelopes {ε : Type} (acts : List (WorkerAction ε)) : List ε :=
  acts.foldr
    (fun a acc => match a with
      | WorkerAction.sent e => e :: acc
      | WorkerAction.notified _ => acc) []

/-! ## Integration tokens (`hawk_core/src/protocol/token.rs`)

`decode_token` base64-decodes the token with the STANDARD engine, parses
the bytes as JSON into `DecodedToken { integrationId, secret }`, and
rejects an empty integration id.  The base64 codec and the fragment of
JSON needed for this struct are embedded below.  Bytes are `Nat` values
below 256; a Rust `String` is modelled as a Lean `String`, its UTF-8
bytes as the codepoints of its characters (exact for ASCII data). -/

/-- Character of the STANDARD base64 alphabet at index `n < 64`. -/
def b64Char (n : Nat) : Char :=
  if n < 26 then Char.ofNat (65 + n)
  else if n < 52 then Char.ofNat (97 + (n - 26))
  else if n < 62 then Char.ofNat (48 + (n - 52))
  else if n = 62 then '+' else '/'

/-- Index of a character in the STANDARD base64 alphabet; `none` for a
character outside the alphabet (including the padding `=`). -/
def b64Index (c : Char) : Option Nat :=
  let n := c.toNat
  if 65 ≤ n && n ≤ 90 then some (n - 65)
  else if 97 ≤ n && n ≤ 122 then some (n - 97 + 26)
  else if 48 ≤ n && n ≤ 57 then some (n - 48 + 52)
  else if n = 43 then some 62
  else if n = 47 then some 63
  else none

/-- STANDARD base64 encoding of a byte list, with `=` padding. -/
def b64EncodeBytes : List Nat → List Char
  | [] => []
  | [a] => [b64Char (a / 4), b64Char (a % 4 * 16), '=', '=']
  | [a, b] =>
      [b64Char (a / 4), b64Char (a % 4 * 16 + b / 16), b64Char (b % 16 * 4), '=']
  | a :: b :: c :: rest =>
      b64Char (a / 4) :: b64Char (a % 4 * 16 + b / 16) ::
        b64Char (b % 16 * 4 + c / 64) :: b64Char (c % 64) :: b64EncodeBytes rest

/-- STANDARD base64 decoding (model of the `base64` crate's STANDARD
engine): input must consist of whole 4-character quanta, `=` padding may
close the final quantum, and any character outside the alphabet is an
error (`none`). -/
def b64DecodeBytes : List Char → Option (List Nat)
  | [] => some []
  | p :: q :: r :: s :: rest =>
      match b64Index p, b64Index q with
      | some x, some y =>
          if r = '=' then
            if s = '=' && rest.isEmpty then some [x * 4 + y / 16] else none
          else
            match b64Index r with
            | some z =>
                if s = '=' then
                  if rest.isEmpty then some [x * 4 + y / 16, y % 16 * 16 + z / 4]
                  else none
                else
                  match b64Index s, b64DecodeBytes rest with
                  | some w, some tl =>
                      some ((x * 4 + y / 16) :: (y % 16 * 16 + z / 4) ::
                        (z % 4 * 64 + w) :: tl)
                  | _, _ => none
            | none => none
      | _, _ => none
  | _ => none

/-- Lowercase hexadecimal digit for `n < 16`. -/
def hexDigit (n : Nat) : Char :=
  if n < 10 then Char.ofNat (48 + n) else Char.ofNat (97 + (n - 10))

/-- Value of a hexadecimal digit character. -/
def hexVal (c : Char) : Option Nat :=
  let n := c.toNat
  if 48 ≤ n && n ≤ 57 then some (n - 48)
  else if 97 ≤ n && n ≤ 102 then some (n - 97 + 10)
  else if 65 ≤ n && n ≤ 70 then some (n - 65 + 10)
  else none

/-- JSON string escaping of one character, as the `serde_json` serializer
produces it: `"` and `\` are backslash-escaped, the named control
characters use their short forms, remaining control characters use
`\u00XX`, and everything else is emitted verbatim. -/
def escapeChar (c : Char) : List Char :=
  if c = '"' then ['\\', '"']
  else if c = '\\' then ['\\', '\\']
  else if c = '\n' then ['\\', 'n']
  else if c = '\r' then ['\\', 'r']
  else if c = '\t' then ['\\', 't']
  else if c.toNat = 8 then ['\\', 'b']
  else if c.toNat = 12 then ['\\', 'f']
  else if c.toNat < 32 then
    ['\\', 'u', '0', '0', hexDigit (c.toNat / 16), hexDigit (c.toNat % 16)]
  else [c]

/-- Escaped body of a JSON string. -/
def escBody (l : List Char) : List Char :=
  l.foldr (fun c acc => escapeChar c ++ acc) []

/-- A serialized JSON string, quotes included. -/
def encodeJsonString (s : String) : List Char :=
  '"' :: escBody s.data ++ ['"']

/-- JSON insignificant whitespace. -/
def isJsonWs (c : Char) : Bool :=
  c = ' ' || c = '\t' || c = '\n' || c = '\r'

/-- Skip insignificant whitespace. -/
def skipWs : List Char → List Char
  | [] => []
  | c :: rest => if isJsonWs c then skipWs rest else c :: rest

/-- Parse the body of a JSON string after the opening quote, returning
the decoded characters and the input after the closing quote.  Handles
the escapes the serializer produces as well as `\/` and 4-digit `\u`
escapes; raw control characters are rejected as `serde_json` does. -/
def parseStringBody : List Char → Option (List Char × List Char)
  | [] => none
  | c :: rest =>
      if c = '"' then some ([], rest)
      else if c = '\\' then
        match rest with
        | [] => none
        | e :: rest2 =>
            if e = '"' || e = '\\' || e = '/' then
              (parseStringBody rest2).map (fun p => (e :: p.1, p.2))
            else if e = 'n' then
              (parseStringBody rest2).map (fun p => ('\n' :: p.1, p.2))
            else if e = 'r' then
              (parseStringBody rest2).map (fun p => ('\r' :: p.1, p.2))
            else if e = 't' then
              (parseStringBody rest2).map (fun p => ('\t' :: p.1, p.2))
            else if e = 'b' then
              (parseStringBody rest2).map (fun p => (Char.ofNat 8 :: p.1, p.2))
            else if e = 'f' then
              (parseStringBody rest2).map (fun p => (Char.ofNat 12 :: p.1, p.2))
            else if e = 'u' then
              match rest2 with
              | h1 :: h2 :: h3 :: h4 :: rest3 =>
                  match hexVal h1, hexVal h2, hexVal h3, hexVal h4 with
                  | some a, some b, some cc, some d =>
                      (parseStringBody rest3).map (fun p =>
                        (Char.ofNat (a * 4096 + b * 256 + cc * 16 + d) :: p.1, p.2))
                  | _, _, _, _ => none
              | _ => none
            else none
      else if c.toNat < 32 then none
      else (parseStringBody rest).map (fun p => (c :: p.1, p.2))

/-- Parse a complete JSON string (opening quote included). -/
def parseJsonString (cs : List Char) : Option (String × List Char) :=
  match cs with
  | c :: rest =>
      if c = '"' then (parseStringBody rest).map (fun p => (String.mk p.1, p.2))
      else none
  | [] => none

/-- Association-list lookup on string maps. -/
def slookup (m : List (String × String)) (k : String) : Option String :=
  match m with
  | [] => none
  | (k2, v2) :: rest => if k2 = k then some v2 else slookup rest k

/-- Parse the members of a JSON object after the opening brace: a
(possibly empty) comma-separated list of `"key": "value"` pairs followed
by the closing brace.  Values are restricted to strings — enough for the
`DecodedToken` shape `serde` deserializes.  `fuel` bounds the recursion
depth; one unit per member suffices. -/
def parseMembersF : Nat → List Char → Option (List (String × String) × List Char)
  | 0, _ => none
  | Nat.succ fuel, cs =>
      match skipWs cs with
      | [] => none
      | c :: rest =>
          if c = '}' then some ([], rest)
          else
            match parseJsonString (c :: rest) with
            | none => none
            | some (key, cs2) =>
                match skipWs cs2 with
                | [] => none
                | c2 :: cs3 =>
                    if c2 = ':' then
                      match parseJsonString (skipWs cs3) with
                      | none => none
                      | some (val, cs4) =>
                          match skipWs cs4 with
                          | [] => none
                          | c3 :: cs5 =>
                              if c3 = ',' then
                                (parseMembersF fuel cs5).map
                                  (fun p => ((key, val) :: p.1, p.2))
                              else if c3 = '}' then some ([(key, val)], cs5)
                              else none
                    else none

/-- `token.rs` `DecodedToken`: the parsed contents of an integration
token. -/
structure DecodedToken where
  integrationId : String
  secret : String
deriving DecidableEq

/-- Model of `serde_json::from_slice::<DecodedToken>` on the decoded
characters: a single JSON object with string members and no trailing
data, from which the `integrationId` and `secret` fields are required. -/
def parseTokenJson (cs : List Char) : Option DecodedToken :=
  match skipWs cs with
  | [] => none
  | c :: rest =>
      if c = '{' then
        match parseMembersF (rest.length + 1) rest with
        | none => none
        | some (members, after) =>
            if (skipWs after).isEmpty then
              match slookup members "integrationId", slookup members "secret" with
              | some i, some s => some { integrationId := i, secret := s }
              | _, _ => none
            else none
      else none

/-- `token.rs` `decode_token`: base64-decode, parse the JSON, reject an
empty integration id. -/
def decodeToken (token : String) : Except String DecodedToken :=
  match b64DecodeBytes token.data with
  | none => Except.error "Failed to base64-decode integration token"
  | some bytes =>
      match parseTokenJson (bytes.map Char.ofNat) with
      | none => Except.error "Failed to parse integration token"
      | some decoded =>
          if decoded.integrationId = "" then
            Except.error "Invalid integration token: integrationId is empty"
          else Except.ok decoded

/-- `token.rs` `default_endpoint`. -/
def defaultEndpoint (integrationId : String) : String :=
  "https://" ++ integrationId ++ ".k1.hawk.so/"

/-- The canonical serialization of a token object, as
`serde_json::to_string` would produce it:
`{"integrationId":"…","secret":"…"}`. -/
def encodeTokenJson (integrationId secret : String) : List Char :=
  '{' :: (encodeJsonString "integrationId" ++ [':'] ++
    encodeJsonString integrationId ++ [','] ++
    encodeJsonString "secret" ++ [':'] ++
    encodeJsonString secret ++ ['}'])

/-- A valid token: the base64 encoding of the canonical JSON
serialization of `{integrationId, secret}`. -/
def makeToken (integrationId secret : String) : String :=
  String.mk (b64EncodeBytes ((encodeTokenJson integrationId secret).map Char.toNat))

/-! ## The clients

User callbacks (`before_send`) are Rust closures that may panic; an
invocation is modelled as returning either a value or `panicked`. -/

/-- Outcome of invoking a user callback. -/
inductive CbOutcome (ρ : Type) where
  | ret (r : ρ)
  | panicked

/-- `crates/core/src/types.rs` `BeforeSendResult`. -/
inductive BeforeSendResult where
  | drop
  | send (e : EventData)

/-- `crates/core` `Client` (the fields used at send/flush time). -/
structure ClientC where
  token : String
  release : Option String
  environment : Option String
  service : Option String
  beforeSend : Option (EventData → CbOutcome BeforeSendResult)
  flushTimeoutMs : Nat

/-- Mutable state touched by `crates/core` `Client::send_event`: the
context manager, the channel, and the warnings printed to stderr. -/
structure StateC where
  ctx : CtxInner
  queue : Chan (WorkerMsg HawkEvent)
  warnings : List String

/-- The final enqueue step of `crates/core` `Client::send_event`: wrap in
the envelope and `try_send`, logging a warning when the channel is full
or disconnected.  Never blocks. -/
def enqueueC (c : ClientC) (st : StateC) (ev : EventData) : StateC :=
  let envelope : HawkEvent :=
    { token := c.token, catcherType := CATCHER_TYPE, payload := ev }
  match trySend st.queue (WorkerMsg.event envelope) with
  | (q2, none) => { st with queue := q2 }
  | (q2, some SendErr.full) =>
      { st with
        queue := q2
        warnings := st.warnings ++ ["[Hawk] Event queue is full — dropping event"] }
  | (q2, some SendErr.disconnected) =>
      { st with
        queue := q2
        warnings := st.warnings ++ ["[Hawk] Worker thread has shut down — dropping event"] }

/-- `crates/core` `Client::send_event`.  Fills default fields (release,
catcher version, user, merged context, environment/service keys,
breadcrumbs) exactly in source order, runs `before_send` — with no
failure boundary, so a panicking callback propagates (`Except.error`) —
and finally try-enqueues the envelope. -/
def sendEventC (c : ClientC) (st : StateC) (event0 : EventData) :
    Except Unit StateC :=
  let event1 := if event0.release.isNone
    then { event0 with release := c.release } else event0
  let event2 := if event1.catcherVersion = ""
    then { event1 with catcherVersion := CATCHER_VERSION } else event1
  let event3 := if event2.user.isNone
    then { event2 with user := getUser st.ctx } else event2
  let event4 := { event3 with context := buildContext st.ctx event3.context }
  let event5 :=
    if c.environment.isSome || c.service.isSome then
      let ctxv := event4.context.getD (Json.obj [])
      let ctxv2 :=
        match ctxv with
        | Json.obj m =>
            let m1 := match c.environment with
              | some env => jinsert m "environment" (Json.str env)
              | none => m
            let m2 := match c.service with
              | some svc => jinsert m1 "service" (Json.str svc)
              | none => m1
            Json.obj m2
        | other => other
      { event4 with context := some ctxv2 }
    else event4
  let step :=
    if event5.breadcrumbs.isNone then
      let p := takeBreadcrumbs st.ctx
      ({ event5 with breadcrumbs := p.1 }, p.2)
    else (event5, st.ctx)
  let event6 := step.1
  let st2 : StateC := { st with ctx := step.2 }
  match c.beforeSend with
  | none => Except.ok (enqueueC c st2 event6)
  | some cb =>
      match cb event6 with
      | CbOutcome.panicked => Except.error ()
      | CbOutcome.ret BeforeSendResult.drop => Except.ok st2
      | CbOutcome.ret (BeforeSendResult.send modified) =>
          Except.ok (enqueueC c st2 modified)

/-- `FlushSignal::wait_timeout`, as observed by the caller: `notifyAt`
is the instant (ms from the start of the wait) at which the worker
notifies the signal, if ever.  Returns whether the signal fired before
the timeout, together with the time the caller was blocked. -/
def waitTimeout (timeoutMs : Nat) (notifyAt : Option Nat) : Bool × Nat :=
  match notifyAt with
  | some t => if t ≤ timeoutMs then (true, t) else (false, timeoutMs)
  | none => (false, timeoutMs)

/-- `crates/core` `Client::flush`: fresh signal, non-blocking `try_send`
of the flush marker, then wait on the signal up to the configured
timeout; `false` with zero wait when the enqueue fails.  Result is
`((fired, msBlocked), queueAfter)`. -/
def flushC (c : ClientC) (q : Chan (WorkerMsg HawkEvent)) (sig : Nat)
    (notifyAt : Option Nat) : (Bool × Nat) × Chan (WorkerMsg HawkEvent) :=
  match trySend q (WorkerMsg.flushMarker sig) with
  | (q2, none) => (waitTimeout c.flushTimeoutMs notifyAt, q2)
  | (q2, some _) => ((false, 0), q2)

/-- `hawk_core` constant `QUEUE_CAPACITY`. -/
def QUEUE_CAPACITY : Nat := 100

/-- `hawk_core` constant `FLUSH_TIMEOUT` in milliseconds. -/
def FLUSH_TIMEOUT_MS : Nat := 2000

/-- `hawk_core` `Client` (MVP: token and callback only). -/
structure ClientH where
  token : String
  beforeSend : Option (HEventData → CbOutcome (Option HEventData))

/-- Mutable state touched by `hawk_core` `Client::send_event`. -/
structure StateH where
  queue : Chan (WorkerMsg HHawkEvent)
  warnings : List String

/-- `hawk_core` `Client::send_event`: the callback runs inside
`catch_unwind` on a clone of the event — `None` drops it, `Some` replaces
it, and a panic falls back to sending the original unchanged with a
warning; then the envelope is try-enqueued (never blocking). -/
def sendEventH (c : ClientH) (st : StateH) (event0 : HEventData) : StateH :=
  let step : Option HEventData × List String :=
    match c.beforeSend with
    | none => (some event0, [])
    | some cb =>
        match cb event0 with
        | CbOutcome.ret none => (none, [])
        | CbOutcome.ret (some modified) => (some modified, [])
        | CbOutcome.panicked =>
            (some event0,
             ["[Hawk] before_send panicked — sending original event unchanged"])
  match step with
  | (none, w) => { st with warnings := st.warnings ++ w }
  | (some ev, w) =>
      let envelope : HHawkEvent :=
        { token := c.token, catcherType := CATCHER_TYPE, payload := ev }
      match trySend st.queue (WorkerMsg.event envelope) with
      | (q2, none) => { queue := q2, warnings := st.warnings ++ w }
      | (q2, some SendErr.full) =>
          { queue := q2, warnings := st.warnings ++ w ++
              ["[Hawk] Event queue is full — dropping event"] }
      | (q2, some SendErr.disconnected) =>
          { queue := q2, warnings := st.warnings ++ w ++
              ["[Hawk] Worker thread has shut down — dropping event"] }

/-- `hawk_core` `Client::flush`: fresh signal, then `send_timeout` of the
flush marker with the 2-second timeout (which blocks while the channel
is full), then wait on the signal.  Result is
`((fired, msBlocked), queueAfter)`. -/
def flushH (q : Chan (WorkerMsg HHawkEvent)) (sig : Nat)
    (notifyAt : Option Nat) : (Bool × Nat) × Chan (WorkerMsg HHawkEvent) :=
  match sendTimeout q (WorkerMsg.flushMarker sig) FLUSH_TIMEOUT_MS with
  | ((q2, none), enqWait) =>
      let w := waitTimeout FLUSH_TIMEOUT_MS notifyAt
      ((w.1, enqWait + w.2), q2)
  | ((q2, some _), enqWait) => ((false, enqWait), q2)

/-! ## Initialization (`Client::init` in both crates)

The process-wide state tracks the `OnceLock` contents together with the
resources allocated so far (bounded channels created, transports built,
worker threads spawned), so that "no side effects on a second call" is
an inspectable property. -/

/-- Process-wide state for the `crates/core` client. -/
structure GlobalC where
  client : Option ClientC
  queuesCreated : Nat
  transportsBuilt : Nat
  workersSpawned : Nat

/-- `crates/core` `Options` (callback included). -/
structure OptionsC where
  collectorEndpoint : Option String
  service : Option String
  release : Option String
  environment : Option String
  queueCapacity : Nat
  flushTimeoutMs : Nat
  disableBreadcrumbs : Bool
  beforeSend : Option (EventData → CbOutcome BeforeSendResult)

/-- `Options::default()` for `crates/core`. -/
def defaultOptionsC : OptionsC :=
  { collectorEndpoint := none, service := none, release := none,
    environment := none, queueCapacity := 100, flushTimeoutMs := 2000,
    disableBreadcrumbs := false, beforeSend := none }

/-- `crates/core` `Client::init`: decode the token, resolve the endpoint,
create the bounded channel, build the transport, spawn the worker, and
only then attempt `GLOBAL_CLIENT.set`, which fails when a client is
already stored.  There is no early already-initialized check. -/
def initC (g : GlobalC) (tokenStr : String) (options : OptionsC) :
    GlobalC × Except String Unit :=
  match decodeToken tokenStr with
  | Except.error e => (g, Except.error e)
  | Except.ok decoded =>
      let _endpoint :=
        options.collectorEndpoint.getD (defaultEndpoint decoded.integrationId)
      let g1 := { g with queuesCreated := g.queuesCreated + 1 }
      let g2 := { g1 with
                  transportsBuilt := g1.transportsBuilt + 1
                  workersSpawned := g1.workersSpawned + 1 }
      let client : ClientC :=
        { token := tokenStr, release := options.release,
          environment := options.environment, service := options.service,
          beforeSend := options.beforeSend,
          flushTimeoutMs := options.flushTimeoutMs }
      match g2.client with
      | some _ => (g2, Except.error "Hawk SDK is already initialized")
      | none => ({ g2 with client := some client }, Except.ok ())

/-- Process-wide state for the `hawk_core` client. -/
structure GlobalH where
  client : Option ClientH
  queuesCreated : Nat
  transportsBuilt : Nat
  workersSpawned : Nat

/-- `hawk_core` `Client::init`: an early guard returns
`AlreadyInitialized` before anything is decoded or allocated; otherwise
decode, derive the endpoint, create the channel, build the transport,
spawn the worker, and store the client (the `OnceLock::set` failure arm
is kept for faithfulness although the early guard makes it dead). -/
def initH (g : GlobalH) (tokenStr : String)
    (beforeSend : Option (HEventData → CbOutcome (Option HEventData))) :
    GlobalH × Except String Unit :=
  if g.client.isSome then (g, Except.error "Hawk SDK is already initialized")
  else
    match decodeToken tokenStr with
    | Except.error e => (g, Except.error e)
    | Except.ok decoded =>
        let _endpoint := defaultEndpoint decoded.integrationId
        let g1 := { g with
                    queuesCreated := g.queuesCreated + 1
                    transportsBuilt := g.transportsBuilt + 1
                    workersSpawned := g.workersSpawned + 1 }
        match g1.client with
        | some _ => (g1, Except.error "Hawk SDK is already initialized")
        | none =>
            ({ g1 with client := some { token := tokenStr, beforeSend := beforeSend } },
             Except.ok ())

/-! ## Public free functions (`lib.rs` of both crates) -/

/-- `crates/core` free function `flush()`: `true` immediately when no
global client is set, otherwise `Client::flush`. -/
def flushFreeC (g : Option ClientC) (q : Chan (WorkerMsg HawkEvent))
    (sig : Nat) (notifyAt : Option Nat) :
    (Bool × Nat) × Chan (WorkerMsg HawkEvent) :=
  match g with
  | some c => flushC c q sig notifyAt
  | none => ((true, 0), q)

/-- `hawk_core` free function `flush()`. -/
def flushFreeH (g : Option ClientH) (q : Chan (WorkerMsg HHawkEvent))
    (sig : Nat) (notifyAt : Option Nat) :
    (Bool × Nat) × Chan (WorkerMsg HHawkEvent) :=
  match g with
  | some _ => flushH q sig notifyAt
  | none => ((true, 0), q)

/-- `crates/core` free function `capture_event`: a unit-returning silent
no-op before `init`. -/
def captureEventFreeC (g : Option ClientC) (st : StateC) (ev : EventData) :
    Except Unit StateC :=
  match g with
  | some c => sendEventC c st ev
  | none => Except.ok st

/-! ## The panic hooks (`crates/panic/src/lib.rs`, `hawk_panic/src/lib.rs`) -/

/-- A panic payload: `&str`, `String`, or anything else. -/
inductive PanicPayload where
  | strLit (s : String)
  | strOwned (s : String)
  | other
deriving DecidableEq

/-- `std::panic::Location` data. -/
structure PanicLocation where
  file : String
  line : Nat
  column : Nat
deriving DecidableEq

/-- The parts of `PanicHookInfo` the hooks read. -/
structure PanicInfo where
  payload : PanicPayload
  location : Option PanicLocation
  threadName : Option String
deriving DecidableEq

/-- Message extraction (identical in both hooks): string payloads
verbatim, anything else becomes `<unknown panic>`. -/
def getPanicMessage (info : PanicInfo) : String :=
  match info.payload with
  | PanicPayload.strLit s => s
  | PanicPayload.strOwned s => s
  | PanicPayload.other => "<unknown panic>"

/-- `crates/panic` `handle_panic`: builds the event with title
`panic: {message}`, type `fatal`, and a context object holding the
source location (when available) and the thread name.  `frames` are the
already-converted backtrace frames. -/
def handlePanicC (info : PanicInfo) (frames : List BacktraceFrame) : EventData :=
  let message := getPanicMessage info
  let threadName := (info.threadName).getD "<unnamed>"
  let ctxMap : List (String × Json) :=
    match info.location with
    | some loc =>
        jinsert (jinsert (jinsert [] "file" (Json.str loc.file))
          "line" (Json.num loc.line)) "column" (Json.num loc.column)
    | none => []
  let ctxMap2 := jinsert ctxMap "thread" (Json.str threadName)
  { title := "panic: " ++ message,
    eventType := some "fatal",
    backtrace := if frames.isEmpty then none else some frames,
    release := none,
    user := none,
    context := some (Json.obj ctxMap2),
    breadcrumbs := none,
    catcherVersion := CATCHER_VERSION }

/-- `hawk_panic` `handle_panic`: builds the MVP event whose title carries
the location and thread name inline
(`panic: {message} at {file}:{line} [thread: {name}]`); the MVP
`EventData` has no context field. -/
def handlePanicH (info : PanicInfo) (frames : List BacktraceFrame) : HEventData :=
  let message := getPanicMessage info
  let threadName := (info.threadName).getD "<unnamed>"
  let locationStr :=
    match info.location with
    | some loc => " at " ++ loc.file ++ ":" ++ toString loc.line
    | none => ""
  { title := "panic: " ++ message ++ locationStr ++ " [thread: " ++ threadName ++ "]",
    eventType := some "fatal",
    backtrace := if frames.isEmpty then none else some frames,
    catcherVersion := CATCHER_VERSION }

/-- The process-wide panic-handler chain: the runtime default handler with
zero or more Hawk hooks layered on top. -/
inductive HookChain where
  | defaultHook
  | hawkHook (prev : HookChain)
deriving DecidableEq

/-- Process state for hook installation: the current chain plus the
`INSTALLED` atomic flag used only by `hawk_panic`. -/
structure PanicHookState where
  hook : HookChain
  installedFlag : Bool
deriving DecidableEq

/-- The fresh process: default hook, flag clear. -/
def freshPanicHookState : PanicHookState :=
  { hook := HookChain.defaultHook, installedFlag := false }

/-- `hawk_panic::install`: `INSTALLED.swap(true)` makes every call after
the first a no-op; the first call takes the current hook and chains onto
it. -/
def installH (s : PanicHookState) : PanicHookState :=
  if s.installedFlag then s
  else { hook := HookChain.hawkHook s.hook, installedFlag := true }

/-- `crates/panic::install`: takes the current hook and chains onto it on
every call — there is no installed-once guard. -/
def installC (s : PanicHookState) : PanicHookState :=
  { s with hook := HookChain.hawkHook s.hook }

/-- Running the handler chain on one panic, threading the per-thread
`IN_HOOK` re-entrancy flag: a Hawk layer that sees the flag set only
forwards; otherwise it sets the flag, captures one event inside
`catch_unwind`, clears the flag, and always forwards to the previous
handler.  Returns how many events were captured and whether the runtime
default handler (the default crash output) ran. -/
def runHooks : HookChain → Bool → Nat × Bool
  | HookChain.defaultHook, _ => (0, true)
  | HookChain.hawkHook prev, inHook =>
      if inHook then runHooks prev inHook
      else
        let rest := runHooks prev false
        (rest.1 + 1, rest.2)

/-! ## Auxiliary spec-side definitions used by the theorem statements -/

/-- The context-manager operations a caller can perform; used to
quantify over every reachable `ContextManager` state. -/
inductive CtxOp where
  | opSetTag (k v : String)
  | opSetExtra (k v : String)
  | opSetUser (u : User)
  | opAddBreadcrumb (b : Breadcrumb)
  | opTakeBreadcrumbs

/-- One context-manager operation applied to the state. -/
def ctxStep (i : CtxInner) : CtxOp → CtxInner
  | CtxOp.opSetTag k v => setTag i k v
  | CtxOp.opSetExtra k v => setExtra i k v
  | CtxOp.opSetUser u => setUser i u
  | CtxOp.opAddBreadcrumb b => addBreadcrumb i b
  | CtxOp.opTakeBreadcrumbs => (takeBreadcrumbs i).2

/-- First-some choice on optional JSON values (lookup priority of an
overlay). -/
def lookupOrElse (a b : Option Json) : Option Json :=
  match a with
  | some v => some v
  | none => b

/-- What `send_event` is specified to add to a plain event (no per-event
context, ambient context empty): the release and SDK version defaults.
Used to state which envelopes reach the transport. -/
def fillSimple (c : ClientC) (ev : EventData) : EventData :=
  { ev with
    release := if ev.release.isNone then c.release else ev.release
    catcherVersion := if ev.catcherVersion = "" then CATCHER_VERSION
      else ev.catcherVersion
    context := none }

/-- The envelope a plain event is specified to be delivered in. -/
def expectedEnvelope (c : ClientC) (ev : EventData) : HawkEvent :=
  { token := c.token, catcherType := CATCHER_TYPE, payload := fillSimple c ev }

/-- Repeatedly calling `send_event` from the caller thread; with no
`before_send` callback installed no call can panic, and the
`Except.error` arm is never taken. -/
def sendAll (c : ClientC) (st : StateC) (es : List EventData) : StateC :=
  es.foldl
    (fun s e => match sendEventC c s e with
      | Except.ok s2 => s2
      | Except.error _ => s) st

/-- The warning `send_event` logs when the queue is full. -/
def fullWarning : String := "[Hawk] Event queue is full — dropping event"

/-! ### Concrete fixtures for witnesses and counterexamples -/

/-- A minimal plain event. -/
def evW : EventData :=
  { title := "boom", eventType := some "error", backtrace := none,
    release := none, user := none, context := none, breadcrumbs := none,
    catcherVersion := "" }

/-- A minimal MVP event. -/
def hevW : HEventData :=
  { title := "boom", eventType := some "error", backtrace := none,
    catcherVersion := "hawk-rust/0.1.0" }

/-- An empty, connected channel of capacity 2 for the MVP client. -/
def hQueueW : Chan (WorkerMsg HHawkEvent) :=
  { cap := 2, msgs := [], connected := true }

/-- A `hawk_core` channel at its full capacity of 100 (the worker is not
draining), used to exhibit the blocking flush enqueue. -/
def hQueueFull : Chan (WorkerMsg HHawkEvent) :=
  { cap := QUEUE_CAPACITY,
    msgs := List.replicate QUEUE_CAPACITY
      (WorkerMsg.event { token := "t", catcherType := CATCHER_TYPE, payload := hevW }),
    connected := true }

/-- A `crates/core` client whose `before_send` callback always panics. -/
def clientPanicC : ClientC :=
  { token := "tok", release := none, environment := none, service := none,
    beforeSend := some (fun _ => CbOutcome.panicked), flushTimeoutMs := 2000 }

/-- A fresh `crates/core` send-time state with an empty capacity-2 queue. -/
def stateW : StateC :=
  { ctx := ctxNew true,
    queue := { cap := 2, msgs := [], connected := true },
    warnings := [] }

/-- The doc-comment example token from `token.rs`:
base64 of `{"integrationId":"abc","secret":"xyz"}`. -/
def tokenW : String := "eyJpbnRlZ3JhdGlvbklkIjoiYWJjIiwic2VjcmV0IjoieHl6In0="

/-- Sixty distinct breadcrumbs. -/
def bcsW : List Breadcrumb :=
  (List.range 60).map (fun n => Breadcrumb.mk (toString n))

/-- A fresh send-time state with an empty connected queue of the given
capacity. -/
def startState (cap : Nat) : StateC :=
  { ctx := ctxNew true,
    queue := { cap := cap, msgs := [], connected := true },
    warnings := [] }

/-- A `crates/core` client with no callback and no ambient options. -/
def clientSimpleW : ClientC :=
  { token := "tok", release := none, environment := none, service := none,
    beforeSend := none, flushTimeoutMs := 2000 }

/-- Two plain events. -/
def esW : List EventData :=
  [evW, { evW with title := "second" }]

/-- A full, connected `crates/core` channel (capacity 1). -/
def cQueueFull : Chan (WorkerMsg HawkEvent) :=
  { cap := 1, msgs := [WorkerMsg.flushMarker 0], connected := true }

/-- A fresh process-wide state for the `crates/core` client. -/
def freshGlobalC : GlobalC :=
  { client := none, queuesCreated := 0, transportsBuilt := 0, workersSpawned := 0 }

/-- A fresh process-wide state for the `hawk_core` client. -/
def freshGlobalH : GlobalH :=
  { client := none, queuesCreated := 0, transportsBuilt := 0, workersSpawned := 0 }

/-!
# Theorems

Each claim of the specification is settled by one theorem below (with a
counterexample theorem where the claim as stated fails on the code).
-/

/-- Claim C10: when the SDK has never been initialized (no global client),
the public free function `flush()` returns `true` immediately — zero
blocking time, queue untouched, nothing enqueued — in both crates, while
other pre-init calls such as `capture_event` are unit-returning no-ops. -/
theorem C10_preinit_flush_returns_true (q : Chan (WorkerMsg HawkEvent))
    (qh : Chan (WorkerMsg HHawkEvent)) (sig : Nat) (notifyAt : Option Nat)
    (st : StateC) (ev : EventData) :
    flushFreeC none q sig notifyAt = ((true, 0), q) ∧
    flushFreeH none qh sig notifyAt = ((true, 0), qh) ∧
    captureEventFreeC none st ev = Except.ok st :=
  ⟨rfl, rfl, rfl⟩

/-- Claim C4 (counterexample): the claim says a failed flush-marker
enqueue returns `false` immediately without waiting, but the `hawk_core`
`Client::flush` enqueues the marker with `send_timeout`, so against a
full 100-message queue it blocks the caller for the whole 2000 ms flush
timeout before returning `false`. -/
theorem C4_cex_hawk_flush_blocks_on_full_queue :
    flushH hQueueFull 1 none = ((false, 2000), hQueueFull) ∧ (2000 : Nat) ≠ 0 :=
  ⟨rfl, by decide⟩

/-- Claim C4 (amended): `flush` builds a fresh signal, enqueues a flush
marker and waits on the signal for at most the configured timeout,
returning whether it fired in time.  In `crates/core` the marker enqueue
is the non-blocking `try_send` and any enqueue failure returns `false`
with zero wait; in `hawk_core` the marker enqueue is `send_timeout`, so
only the disconnected failure is immediate, while a full queue blocks
for the whole 2000 ms flush timeout before returning `false`. -/
theorem C4_flush_policy (c : ClientC) (q : Chan (WorkerMsg HawkEvent))
    (qh : Chan (WorkerMsg HHawkEvent)) (sig : Nat) (notifyAt : Option Nat) :
    ((trySend q (WorkerMsg.flushMarker sig)).2.isSome = true →
      flushC c q sig notifyAt = ((false, 0), q)) ∧
    ((trySend q (WorkerMsg.flushMarker sig)).2 = none →
      flushC c q sig notifyAt =
        (waitTimeout c.flushTimeoutMs notifyAt,
         (trySend q (WorkerMsg.flushMarker sig)).1)) ∧
    ((waitTimeout c.flushTimeoutMs notifyAt).1 =
      (match notifyAt with
       | some t => decide (t ≤ c.flushTimeoutMs)
       | none => false)) ∧
    ((waitTimeout c.flushTimeoutMs notifyAt).2 ≤ c.flushTimeoutMs) ∧
    (qh.connected = false → flushH qh sig notifyAt = ((false, 0), qh)) ∧
    (qh.connected = true → qh.cap ≤ qh.msgs.length →
      flushH qh sig notifyAt = ((false, FLUSH_TIMEOUT_MS), qh)) := by
  refine ⟨?_, ?_, ?_, ?_, ?_, ?_⟩
  · intro h
    simp only [flushC, trySend] at h ⊢
    split_ifs at h ⊢ <;> simp_all
  · intro h
    simp only [flushC, trySend] at h ⊢
    split_ifs at h ⊢
    simp_all
  · cases notifyAt with
    | none => rfl
    | some t =>
        simp only [waitTimeout]
        split_ifs with ht <;> simp [ht]
  · cases notifyAt with
    | none => simp [waitTimeout]
    | some t =>
        simp only [waitTimeout]
        split_ifs with ht <;> simp [ht]
  · intro h
    simp [flushH, sendTimeout, h]
  · intro hconn hfull
    simp [flushH, sendTimeout, hconn, hfull]

/-- Claim C4 (witness): concrete instances of the amended theorem — a
full `crates/core` queue makes `flushC` fail with zero wait. -/
theorem C4_flush_policy_witness :
    flushC clientPanicC cQueueFull 1 none = ((false, 0), cQueueFull) :=
  (C4_flush_policy clientPanicC cQueueFull hQueueW 1 none).1 (by decide)

/-- Claim C2 (counterexample): the claim says a second `init` has no side
effects — no worker thread spawned, no queue created — but in
`crates/core` the already-initialized check is only the final
`OnceLock::set`, performed after the channel, transport and worker are
all allocated: a second `init` with a valid token returns
`AlreadyInitialized` yet has spawned a second worker and created a
second queue. -/
theorem C2_cex_second_init_allocates :
    (initC (initC freshGlobalC tokenW defaultOptionsC).1 tokenW defaultOptionsC).2
      = Except.error "Hawk SDK is already initialized" ∧
    (initC (initC freshGlobalC tokenW defaultOptionsC).1 tokenW
      defaultOptionsC).1.workersSpawned = 2 ∧
    (initC (initC freshGlobalC tokenW defaultOptionsC).1 tokenW
      defaultOptionsC).1.queuesCreated = 2 :=
  ⟨rfl, rfl, rfl⟩

/-- Claim C2 (amended): every second `init` call fails with
`AlreadyInitialized` and never replaces the stored client; in the
`hawk_core` version an early guard fires before any decoding or
allocation, so the call has no side effects at all, whereas in the
`crates/core` version the check happens only when storing the client, so
a second call with a decodable token still creates a queue, builds a
transport and spawns a worker thread before failing. -/
theorem C2_second_init_already_initialized (g : GlobalH) (tok : String)
    (cb : Option (HEventData → CbOutcome (Option HEventData)))
    (gc : GlobalC) (opts : OptionsC) (d : DecodedToken)
    (hH : g.client.isSome = true) (hC : gc.client.isSome = true)
    (hd : decodeToken tok = Except.ok d) :
    initH g tok cb = (g, Except.error "Hawk SDK is already initialized") ∧
    (initC gc tok opts).2 = Except.error "Hawk SDK is already initialized" ∧
    (initC gc tok opts).1.client = gc.client ∧
    (initC gc tok opts).1.queuesCreated = gc.queuesCreated + 1 ∧
    (initC gc tok opts).1.transportsBuilt = gc.transportsBuilt + 1 ∧
    (initC gc tok opts).1.workersSpawned = gc.workersSpawned + 1 := by
  obtain ⟨c0, hc0⟩ := Option.isSome_iff_exists.mp hC
  simp [initH, initC, hH, hd, hc0]

/-- Claim C2 (witness): the amended theorem applied to the states after a
first successful `init` with the doc-comment token. -/
theorem C2_second_init_witness :
    initH (initH freshGlobalH tokenW none).1 tokenW none =
      ((initH freshGlobalH tokenW none).1,
        Except.error "Hawk SDK is already initialized") ∧
    (initC (initC freshGlobalC tokenW defaultOptionsC).1 tokenW
      defaultOptionsC).1.workersSpawned =
      (initC freshGlobalC tokenW defaultOptionsC).1.workersSpawned + 1 := by
  have h := C2_second_init_already_initialized
    (initH freshGlobalH tokenW none).1 tokenW none
    (initC freshGlobalC tokenW defaultOptionsC).1 defaultOptionsC
    { integrationId := "abc", secret := "xyz" }
    (by rfl) (by rfl) (by rfl)
  exact ⟨h.1, h.2.2.2.2.2⟩

/-- Claim C7 (counterexample): the claim says installing the panic hook
twice registers exactly one chained handler so a panic is captured at
most once, but `crates/panic::install` has no installed-once guard: two
installs stack two Hawk layers and a single panic is captured twice
(the per-thread re-entrancy flag is cleared before forwarding, so the
inner layer captures again). -/
theorem C7_cex_crates_install_stacks :
    (runHooks (installC (installC freshPanicHookState)).hook false).1 = 2 := by
  decide

/-- Claim C7 (amended): `hawk_panic::install` is idempotent — the
`INSTALLED` atomic makes every call after the first a no-op, so two
installs leave exactly one chained handler and one panic is captured
exactly once; `crates/panic::install` instead chains a new handler on
every call.  In both versions the previously installed handler is always
invoked, so the default crash output is preserved. -/
theorem C7_install_idempotence (s : PanicHookState) (h2 : HookChain)
    (flag : Bool) :
    installH (installH s) = installH s ∧
    runHooks (installH (installH freshPanicHookState)).hook false = (1, true) ∧
    (installC s).hook = HookChain.hawkHook s.hook ∧
    (runHooks h2 flag).2 = true := by
  refine ⟨?_, by decide, rfl, ?_⟩
  · by_cases h : s.installedFlag <;> simp [installH, h]
  · induction h2 generalizing flag with
    | defaultHook => rfl
    | hawkHook prev ih =>
        by_cases h : flag <;> simp [runHooks, h, ih]

/-- Claim C8 (counterexample): the claim says the built event's title is
exactly `panic: {message}` with the source location and thread name
packed into the context, but the `hawk_panic` hook appends the location
and thread name to the title itself (its MVP event has no context
field). -/
theorem C8_cex_hawk_title_contains_location :
    (handlePanicH
      ⟨PanicPayload.strLit "boom", some ⟨"main.rs", 7, 13⟩, some "main"⟩ []).title
      = "panic: boom at main.rs:7 [thread: main]" ∧
    ¬ (handlePanicH
      ⟨PanicPayload.strLit "boom", some ⟨"main.rs", 7, 13⟩, some "main"⟩ []).title
      = "panic: boom" := by
  constructor
  · rfl
  · decide

/-- Claim C8 (amended): both hooks extract string panic payloads verbatim
and render any other payload as `<unknown panic>`, and both build a
`fatal` event; the `crates/panic` hook gives the event the title
`panic: {message}` and packs file, line, column and thread name into the
event context, while the `hawk_panic` hook appends
` at {file}:{line} [thread: {name}]` to the title instead (its event has
no context field). -/
theorem C8_panic_event_shape (s fileName threadName : String)
    (line column : Nat) (frames : List BacktraceFrame) :
    getPanicMessage ⟨PanicPayload.strLit s, none, none⟩ = s ∧
    getPanicMessage ⟨PanicPayload.strOwned s, none, none⟩ = s ∧
    getPanicMessage ⟨PanicPayload.other, none, none⟩ = "<unknown panic>" ∧
    (handlePanicC ⟨PanicPayload.strLit s, some ⟨fileName, line, column⟩,
        some threadName⟩ frames).eventType = some "fatal" ∧
    (handlePanicC ⟨PanicPayload.strLit s, some ⟨fileName, line, column⟩,
        some threadName⟩ frames).title = "panic: " ++ s ∧
    (handlePanicC ⟨PanicPayload.strLit s, some ⟨fileName, line, column⟩,
        some threadName⟩ frames).context =
      some (Json.obj [("file", Json.str fileName), ("line", Json.num line),
        ("column", Json.num column), ("thread", Json.str threadName)]) ∧
    (handlePanicC ⟨PanicPayload.strLit s, none, none⟩ frames).context =
      some (Json.obj [("thread", Json.str "<unnamed>")]) ∧
    (handlePanicH ⟨PanicPayload.strLit s, some ⟨fileName, line, column⟩,
        some threadName⟩ frames).eventType = some "fatal" ∧
    (handlePanicH ⟨PanicPayload.strLit s, some ⟨fileName, line, column⟩,
        some threadName⟩ frames).title =
      "panic: " ++ s ++ " at " ++ fileName ++ ":" ++ toString line ++
        " [thread: " ++ threadName ++ "]" := by
  refine ⟨rfl, rfl, rfl, rfl, rfl, ?_, rfl, rfl, ?_⟩
  · simp [handlePanicC, jinsert, getPanicMessage]
  · simp [handlePanicH, getPanicMessage, String.append_assoc]

/-! ### Breadcrumb ring lemmas -/

/-- Folding `add_breadcrumb` over an enabled manager keeps the last
`MAX_BREADCRUMBS` entries of the accumulated sequence, in order. -/
theorem foldl_addBreadcrumb_spec (bs : List Breadcrumb) :
    ∀ i : CtxInner, i.breadcrumbsEnabled = true →
      i.breadcrumbs.length ≤ MAX_BREADCRUMBS →
      (bs.foldl addBreadcrumb i).breadcrumbs =
        (i.breadcrumbs ++ bs).drop
          ((i.breadcrumbs ++ bs).length - MAX_BREADCRUMBS) := by
  induction bs with
  | nil =>
      intro i he hl
      have h0 : i.breadcrumbs.length - MAX_BREADCRUMBS = 0 := by
        simp only [MAX_BREADCRUMBS] at *
        omega
      simp [h0]
  | cons b rest ih =>
      intro i he hl
      rw [List.foldl_cons]
      by_cases hc : MAX_BREADCRUMBS ≤ i.breadcrumbs.length
      · have hlen : i.breadcrumbs.length = MAX_BREADCRUMBS := le_antisymm hl hc
        have hadd : addBreadcrumb i b =
            { i with breadcrumbs := i.breadcrumbs.tail ++ [b] } := by
          simp [addBreadcrumb, he, hc]
        rw [hadd]
        rw [ih { i with breadcrumbs := i.breadcrumbs.tail ++ [b] } he
          (by simp only [MAX_BREADCRUMBS] at hl hc ⊢; simp; omega)]
        rcases hr : i.breadcrumbs with _ | ⟨hd, tl⟩
        · rw [hr] at hlen
          simp [MAX_BREADCRUMBS] at hlen
        · have htl : tl.length + 1 = MAX_BREADCRUMBS := by
            rw [hr] at hlen
            simpa using hlen
          simp only [hr, List.tail_cons, List.cons_append]
          have hamtL : ((tl ++ [b]) ++ rest).length - MAX_BREADCRUMBS
              = rest.length := by
            simp only [MAX_BREADCRUMBS] at htl ⊢
            simp
            omega
          have hamtR : (hd :: (tl ++ b :: rest)).length - MAX_BREADCRUMBS
              = rest.length + 1 := by
            simp only [MAX_BREADCRUMBS] at htl ⊢
            simp
            omega
          rw [hamtL, hamtR, List.drop_succ_cons, List.append_assoc,
            List.singleton_append]
      · have hadd : addBreadcrumb i b =
            { i with breadcrumbs := i.breadcrumbs ++ [b] } := by
          simp [addBreadcrumb, he, hc]
        rw [hadd]
        rw [ih { i with breadcrumbs := i.breadcrumbs ++ [b] } he
          (by simp only [MAX_BREADCRUMBS] at hl hc ⊢; simp; omega)]
        simp [List.append_assoc]

/-- `add_breadcrumb` preserves the capacity bound. -/
theorem addBreadcrumb_length_le (i : CtxInner) (b : Breadcrumb)
    (h : i.breadcrumbs.length ≤ MAX_BREADCRUMBS) :
    (addBreadcrumb i b).breadcrumbs.length ≤ MAX_BREADCRUMBS := by
  unfold addBreadcrumb
  by_cases he : i.breadcrumbsEnabled
  · by_cases hc : MAX_BREADCRUMBS ≤ i.breadcrumbs.length
    · simp only [MAX_BREADCRUMBS] at h hc ⊢
      simp [he, hc]
      omega
    · simp only [MAX_BREADCRUMBS] at h hc ⊢
      simp [he, hc]
      omega
  · simp [he]
    exact h

/-- Every operation of the context manager preserves the capacity bound
of the breadcrumb ring. -/
theorem ctxStep_ring_bound (ops : List CtxOp) :
    ∀ i : CtxInner, i.breadcrumbs.length ≤ MAX_BREADCRUMBS →
      ((ops.foldl ctxStep i).breadcrumbs).length ≤ MAX_BREADCRUMBS := by
  induction ops with
  | nil => intro i h; simpa using h
  | cons op rest ih =>
      intro i h
      rw [List.foldl_cons]
      apply ih
      cases op with
      | opSetTag k v => simpa [ctxStep, setTag] using h
      | opSetExtra k v => simpa [ctxStep, setExtra] using h
      | opSetUser u => simpa [ctxStep, setUser] using h
      | opAddBreadcrumb b => exact addBreadcrumb_length_le i b h
      | opTakeBreadcrumbs =>
          simp only [ctxStep, takeBreadcrumbs]
          by_cases hm : i.breadcrumbs.isEmpty
          · simpa [hm] using h
          · simp [hm]

/-- Claim C5: the breadcrumb ring is a strict FIFO buffer of capacity 50.
Sixty `add_breadcrumb` calls on an enabled, fresh manager leave exactly
the last 50 entries in insertion order (the 10 oldest evicted);
`take_breadcrumbs` returns those 50 in order and empties the ring; a
second `take_breadcrumbs` returns `none` (absent, never an empty list);
and every state reachable by any operation sequence keeps the ring at or
below its capacity. -/
theorem C5_breadcrumb_ring_fifo (bs : List Breadcrumb) (h : bs.length = 60) :
    (bs.foldl addBreadcrumb (ctxNew true)).breadcrumbs = bs.drop 10 ∧
    (takeBreadcrumbs (bs.foldl addBreadcrumb (ctxNew true))).1 =
      some (bs.drop 10) ∧
    (takeBreadcrumbs (bs.foldl addBreadcrumb (ctxNew true))).2.breadcrumbs = [] ∧
    (takeBreadcrumbs
      (takeBreadcrumbs (bs.foldl addBreadcrumb (ctxNew true))).2).1 = none ∧
    (∀ (ops : List CtxOp) (enabled : Bool),
      ((ops.foldl ctxStep (ctxNew enabled)).breadcrumbs).length
        ≤ MAX_BREADCRUMBS) := by
  have hring : (bs.foldl addBreadcrumb (ctxNew true)).breadcrumbs = bs.drop 10 := by
    rw [foldl_addBreadcrumb_spec bs (ctxNew true) rfl (by simp [ctxNew])]
    simp [ctxNew, h, MAX_BREADCRUMBS]
  have hne : (bs.drop 10).isEmpty = false := by
    have : (bs.drop 10).length = 50 := by simp [h]
    cases hd : bs.drop 10 with
    | nil => rw [hd] at this; simp at this
    | cons x xs => simp [hd]
  refine ⟨hring, ?_, ?_, ?_, ?_⟩
  · simp [takeBreadcrumbs, hring, hne]
  · simp [takeBreadcrumbs, hring, hne]
  · simp [takeBreadcrumbs, hring, hne]
  · intro ops enabled
    exact ctxStep_ring_bound ops (ctxNew enabled) (by simp [ctxNew])

/-- Claim C5 (witness): the concrete sixty breadcrumbs `0`, `1`, …, `59`
leave exactly `10`, …, `59` in the ring, which one `take_breadcrumbs`
returns whole. -/
theorem C5_breadcrumb_ring_fifo_witness :
    (bcsW.foldl addBreadcrumb (ctxNew true)).breadcrumbs = bcsW.drop 10 ∧
    (takeBreadcrumbs (bcsW.foldl addBreadcrumb (ctxNew true))).1 =
      some (bcsW.drop 10) ∧
    (takeBreadcrumbs
      (takeBreadcrumbs (bcsW.foldl addBreadcrumb (ctxNew true))).2).1 = none := by
  have h := C5_breadcrumb_ring_fifo bcsW (by rfl)
  exact ⟨h.1, h.2.1, h.2.2.2.1⟩

/-! ### JSON-map lemmas for `build_context` -/

theorem jlookup_jinsert_self (m : List (String × Json)) (k : String) (v : Json) :
    jlookup (jinsert m k v) k = some v := by
  induction m with
  | nil => simp [jinsert, jlookup]
  | cons kv rest ih =>
      obtain ⟨k2, v2⟩ := kv
      by_cases h : k2 = k
      · simp [jinsert, jlookup, h]
      · simp [jinsert, jlookup, h, ih]

theorem jlookup_jinsert_ne (m : List (String × Json)) (k : String) (v : Json)
    (k2 : String) (h : k2 ≠ k) :
    jlookup (jinsert m k v) k2 = jlookup m k2 := by
  have hk : ¬ k = k2 := fun hh => h hh.symm
  induction m with
  | nil => simp [jinsert, jlookup, hk]
  | cons kv rest ih =>
      obtain ⟨k3, v3⟩ := kv
      by_cases h3 : k3 = k
      · subst h3
        simp [jinsert, jlookup, hk]
      · by_cases h2 : k3 = k2
        · simp [jinsert, jlookup, h3, h2, h]
        · simp [jinsert, jlookup, h3, h2, ih]

theorem jlookup_eq_none_of_not_mem (m : List (String × Json)) (k : String)
    (h : k ∉ m.map Prod.fst) :
    jlookup m k = none := by
  induction m with
  | nil => rfl
  | cons kv rest ih =>
      obtain ⟨k2, v2⟩ := kv
      simp only [List.map_cons, List.mem_cons] at h
      push_neg at h
      have h1 : ¬ k2 = k := fun hh => h.1 hh.symm
      simp [jlookup, h1, ih h.2]

theorem jinsert_ne_nil (m : List (String × Json)) (k : String) (v : Json) :
    jinsert m k v ≠ [] := by
  cases m with
  | nil => simp [jinsert]
  | cons kv rest =>
      obtain ⟨k2, v2⟩ := kv
      by_cases h : k2 = k <;> simp [jinsert, h]

theorem foldl_jinsert_eq_nil_iff (ec : List (String × Json)) :
    ∀ base : List (String × Json),
      ec.foldl (fun acc kv => jinsert acc kv.1 kv.2) base = [] ↔
        base = [] ∧ ec = [] := by
  induction ec with
  | nil => intro base; simp
  | cons kv rest ih =>
      intro base
      rw [List.foldl_cons]
      rw [ih (jinsert base kv.1 kv.2)]
      simp [jinsert_ne_nil]

theorem foldl_jinsert_lookup (ec : List (String × Json)) :
    ∀ base : List (String × Json), (ec.map Prod.fst).Nodup → ∀ k : String,
      jlookup (ec.foldl (fun acc kv => jinsert acc kv.1 kv.2) base) k =
        lookupOrElse (jlookup ec k) (jlookup base k) := by
  induction ec with
  | nil => intro base _ k; simp [jlookup, lookupOrElse]
  | cons kv rest ih =>
      intro base hnd k
      obtain ⟨k0, v0⟩ := kv
      simp only [List.map_cons, List.nodup_cons] at hnd
      rw [List.foldl_cons]
      rw [ih (jinsert base k0 v0) hnd.2 k]
      by_cases hk : k0 = k
      · subst hk
        rw [jlookup_eq_none_of_not_mem rest k0 hnd.1]
        simp [jlookup, lookupOrElse, jlookup_jinsert_self]
      · have hk2 : k ≠ k0 := fun hh => hk hh.symm
        rw [jlookup_jinsert_ne base k0 v0 k hk2]
        simp [jlookup, hk, lookupOrElse]

/-- The lookup behaviour of the base object `{tags?, extras?}` built by
`build_context` before the per-event overlay. -/
theorem baseCtx_lookup (tags extras : List (String × String)) (k : String) :
    jlookup
      (if extras.isEmpty
        then (if tags.isEmpty then [] else jinsert [] "tags" (smapToJson tags))
        else jinsert
          (if tags.isEmpty then [] else jinsert [] "tags" (smapToJson tags))
          "extras" (smapToJson extras)) k =
      (if "tags" = k ∧ ¬ tags = [] then some (smapToJson tags)
       else if "extras" = k ∧ ¬ extras = [] then some (smapToJson extras)
       else none) := by
  have hne : ¬ ("tags" : String) = "extras" := by decide
  by_cases ht : tags.isEmpty <;> by_cases hx : extras.isEmpty <;>
    by_cases hkt : "tags" = k <;> by_cases hkx : "extras" = k <;>
      simp_all [jinsert, jlookup, List.isEmpty_iff]

/-- The base object of `build_context` is empty exactly when both maps
are empty. -/
theorem baseCtx_eq_nil_iff (tags extras : List (String × String)) :
    (if extras.isEmpty
      then (if tags.isEmpty then [] else jinsert [] "tags" (smapToJson tags))
      else jinsert
        (if tags.isEmpty then [] else jinsert [] "tags" (smapToJson tags))
        "extras" (smapToJson extras)) = ([] : List (String × Json)) ↔
      tags = [] ∧ extras = [] := by
  by_cases ht : tags.isEmpty <;> by_cases hx : extras.isEmpty <;>
    simp_all [List.isEmpty_iff, jinsert_ne_nil]

/-- The result wrapper of `build_context` is `none` exactly on the empty
merged object. -/
theorem ifEmpty_none_iff (F : List (String × Json)) :
    ((if F.isEmpty then none else some (Json.obj F)) = none) ↔ F = [] := by
  by_cases h : F.isEmpty <;> simp_all [List.isEmpty_iff]

/-- Inversion of the result wrapper of `build_context`. -/
theorem ifEmpty_some_obj (F m : List (String × Json))
    (h : (if F.isEmpty then none else some (Json.obj F)) = some (Json.obj m)) :
    F = m := by
  by_cases hF : F.isEmpty
  · simp [hF] at h
  · simp [hF] at h
    exact h

/-- Claim C6: `build_context` is a shallow merge.  It starts from an
object holding the keys `tags` and `extras` (each omitted when its map
is empty), overlays every top-level key of the per-event context object
(event keys overwrite on collision, with no deep merge), and returns
`none` exactly when the merged result would be the empty object. -/
theorem C6_build_context_shallow_merge (tags extras : List (String × String))
    (u : Option User) (bcs : List Breadcrumb) (en : Bool)
    (ec : Option (List (String × Json)))
    (hnd : ∀ o, ec = some o → (o.map Prod.fst).Nodup) :
    (buildContext ⟨tags, extras, u, bcs, en⟩ (ec.map Json.obj) = none ↔
      tags = [] ∧ extras = [] ∧ (ec = none ∨ ec = some [])) ∧
    (∀ m k, buildContext ⟨tags, extras, u, bcs, en⟩ (ec.map Json.obj)
        = some (Json.obj m) →
      jlookup m k =
        lookupOrElse
          (match ec with
           | some o => jlookup o k
           | none => none)
          (if "tags" = k ∧ ¬ tags = [] then some (smapToJson tags)
           else if "extras" = k ∧ ¬ extras = [] then some (smapToJson extras)
           else none)) := by
  cases ec with
  | none =>
      constructor
      · simp only [Option.map_none', buildContext]
        rw [ifEmpty_none_iff, baseCtx_eq_nil_iff]
        simp
      · intro m k hm
        simp only [Option.map_none', buildContext] at hm
        have hFm := ifEmpty_some_obj _ _ hm
        rw [← hFm, baseCtx_lookup tags extras k]
        simp [lookupOrElse]
  | some o =>
      have hno := hnd o rfl
      constructor
      · simp only [Option.map_some', buildContext]
        rw [ifEmpty_none_iff, foldl_jinsert_eq_nil_iff, baseCtx_eq_nil_iff]
        constructor
        · rintro ⟨⟨h1, h2⟩, h3⟩
          exact ⟨h1, h2, Or.inr (by rw [h3])⟩
        · rintro ⟨h1, h2, h3⟩
          refine ⟨⟨h1, h2⟩, ?_⟩
          rcases h3 with hh | hh
          · exact Option.noConfusion hh
          · exact Option.some.inj hh
      · intro m k hm
        simp only [Option.map_some', buildContext] at hm
        have hFm := ifEmpty_some_obj _ _ hm
        rw [← hFm, foldl_jinsert_lookup o _ hno k, baseCtx_lookup tags extras k]

/-- Claim C6 (witness): the spec example — tags `{a: "1"}`, extras
`{b: "2"}`, event context `{tags: {a: "9"}, c: "3"}` — merges with the
event's `tags` overriding wholesale and `c` appended, and is not
`none`. -/
theorem C6_build_context_witness :
    ¬ (buildContext ⟨[("a", "1")], [("b", "2")], none, [], true⟩
        (some (Json.obj [("tags", Json.obj [("a", Json.str "9")]),
          ("c", Json.str "3")])) = none) ∧
    (∀ m, buildContext ⟨[("a", "1")], [("b", "2")], none, [], true⟩
        (some (Json.obj [("tags", Json.obj [("a", Json.str "9")]),
          ("c", Json.str "3")])) = some (Json.obj m) →
      jlookup m "tags" = some (Json.obj [("a", Json.str "9")]) ∧
      jlookup m "extras" = some (smapToJson [("b", "2")]) ∧
      jlookup m "c" = some (Json.str "3")) := by
  have h := C6_build_context_shallow_merge [("a", "1")] [("b", "2")] none [] true
    (some [("tags", Json.obj [("a", Json.str "9")]), ("c", Json.str "3")])
    (by intro o ho; simp only [Option.some.injEq] at ho; subst ho; decide)
  constructor
  · intro hc
    have := h.1.mp hc
    simp at this
  · intro m hm
    refine ⟨?_, ?_, ?_⟩
    · have := h.2 m "tags" hm
      simpa [jlookup, lookupOrElse] using this
    · have := h.2 m "extras" hm
      simpa [jlookup, lookupOrElse] using this
    · have := h.2 m "c" hm
      simpa [jlookup, lookupOrElse] using this

/-- Claim C3 (counterexample): the claim says a panicking `before_send`
filter still results in the original event being enqueued exactly once,
but `crates/core::Client::send_event` invokes the callback with no
`catch_unwind`, so the panic propagates out of `send_event` and nothing
is enqueued. -/
theorem C3_cex_crates_filter_panic_propagates :
    sendEventC clientPanicC stateW evW = Except.error () := rfl

/-- Claim C3 (amended): in the `hawk_core` client the filter runs under a
`catch_unwind` failure boundary: a panicking filter results in the
original unmodified event being enqueued exactly once together with a
warning; a `Drop` (`None`) return discards the event and enqueues
nothing; a `Send` (`Some modified`) return enqueues the modified event.
In the `crates/core` client there is no boundary, so a panicking filter
propagates out of `send_event` and the event is lost. -/
theorem C3_before_send_failure_boundary (c : ClientH)
    (cb : HEventData → CbOutcome (Option HEventData)) (st : StateH)
    (ev m : HEventData) (cc : ClientC) (stc : StateC) (evc : EventData)
    (cbc : EventData → CbOutcome BeforeSendResult)
    (hcb : c.beforeSend = some cb)
    (hconn : st.queue.connected = true)
    (hroom : st.queue.msgs.length < st.queue.cap)
    (hcc : cc.beforeSend = some cbc)
    (hpanics : ∀ e, cbc e = CbOutcome.panicked) :
    (cb ev = CbOutcome.panicked →
      sendEventH c st ev =
        ⟨{ st.queue with msgs := st.queue.msgs ++
            [WorkerMsg.event ⟨c.token, CATCHER_TYPE, ev⟩] },
         st.warnings ++
           ["[Hawk] before_send panicked — sending original event unchanged"]⟩) ∧
    (cb ev = CbOutcome.ret none → sendEventH c st ev = st) ∧
    (cb ev = CbOutcome.ret (some m) →
      sendEventH c st ev =
        ⟨{ st.queue with msgs := st.queue.msgs ++
            [WorkerMsg.event ⟨c.token, CATCHER_TYPE, m⟩] },
         st.warnings⟩) ∧
    sendEventC cc stc evc = Except.error () := by
  have hnotfull : ¬ st.queue.cap ≤ st.queue.msgs.length := Nat.not_le.mpr hroom
  refine ⟨?_, ?_, ?_, ?_⟩
  · intro hp
    simp [sendEventH, hcb, hp, trySend, hconn, hnotfull]
  · intro hp
    simp [sendEventH, hcb, hp]
  · intro hp
    simp [sendEventH, hcb, hp, trySend, hconn, hnotfull]
  · simp [sendEventC, hcc, hpanics]

/-- Claim C3 (witness): the amended theorem at a concrete client, state
and event for each filter outcome. -/
theorem C3_before_send_failure_boundary_witness :
    sendEventH ⟨"tok", some (fun _ => CbOutcome.panicked)⟩ ⟨hQueueW, []⟩ hevW =
      ⟨{ hQueueW with msgs := [WorkerMsg.event ⟨"tok", CATCHER_TYPE, hevW⟩] },
       ["[Hawk] before_send panicked — sending original event unchanged"]⟩ ∧
    sendEventC clientPanicC stateW evW = Except.error () := by
  have h := C3_before_send_failure_boundary
    ⟨"tok", some (fun _ => CbOutcome.panicked)⟩ (fun _ => CbOutcome.panicked)
    ⟨hQueueW, []⟩ hevW hevW clientPanicC stateW evW (fun _ => CbOutcome.panicked)
    rfl rfl (by decide) rfl (fun _ => rfl)
  exact ⟨h.1 rfl, h.2.2.2⟩

/-! ### Queue pipeline lemmas -/

theorem enqueueC_ctx (c : ClientC) (st : StateC) (ev : EventData) :
    (enqueueC c st ev).ctx = st.ctx := by
  simp only [enqueueC]
  rcases h : trySend st.queue (WorkerMsg.event
    ⟨c.token, CATCHER_TYPE, ev⟩) with ⟨q2, e⟩
  rcases e with _ | e
  · rfl
  · cases e <;> rfl

theorem enqueueC_cap (c : ClientC) (st : StateC) (ev : EventData) :
    (enqueueC c st ev).queue.cap = st.queue.cap := by
  simp only [enqueueC, trySend]
  split_ifs <;> rfl

theorem enqueueC_connected (c : ClientC) (st : StateC) (ev : EventData) :
    (enqueueC c st ev).queue.connected = st.queue.connected := by
  simp only [enqueueC, trySend]
  split_ifs <;> rfl

theorem enqueueC_room (c : ClientC) (st : StateC) (ev : EventData)
    (hconn : st.queue.connected = true)
    (hroom : st.queue.msgs.length < st.queue.cap) :
    (enqueueC c st ev).queue.msgs = st.queue.msgs ++
      [WorkerMsg.event ⟨c.token, CATCHER_TYPE, ev⟩] ∧
    (enqueueC c st ev).warnings = st.warnings := by
  have hnl : ¬ st.queue.cap ≤ st.queue.msgs.length := Nat.not_le.mpr hroom
  constructor <;> simp [enqueueC, trySend, hconn, hnl]

theorem enqueueC_full (c : ClientC) (st : StateC) (ev : EventData)
    (hconn : st.queue.connected = true)
    (hfull : st.queue.cap ≤ st.queue.msgs.length) :
    (enqueueC c st ev).queue = st.queue ∧
    (enqueueC c st ev).warnings = st.warnings ++ [fullWarning] := by
  constructor <;> simp [enqueueC, trySend, hconn, hfull, fullWarning]

/-- On a plain event (no per-event context) sent through a client with no
callback and no ambient environment/service, against an empty ambient
context, `send_event` reduces to enqueueing the default-filled event. -/
theorem sendEventC_plain (c : ClientC) (st : StateC) (ev : EventData)
    (hbs : c.beforeSend = none) (henv : c.environment = none)
    (hsvc : c.service = none) (htags : st.ctx.tags = [])
    (hextras : st.ctx.extras = []) (hbc : st.ctx.breadcrumbs = [])
    (huser : st.ctx.user = none) (hctx : ev.context = none) :
    sendEventC c st ev = Except.ok (enqueueC c st (fillSimple c ev)) := by
  obtain ⟨t, et, bt, rel, us, ctxe, bc, cv⟩ := ev
  simp only at hctx
  subst hctx
  cases rel <;> cases us <;> cases bc <;> by_cases hcv : cv = "" <;>
    simp [sendEventC, fillSimple, buildContext, takeBreadcrumbs, getUser,
      hbs, henv, hsvc, htags, hextras, hbc, huser, hcv]

theorem sendAll_spec (c : ClientC) (hbs : c.beforeSend = none)
    (henv : c.environment = none) (hsvc : c.service = none) :
    ∀ (es : List EventData) (st : StateC),
      st.ctx.tags = [] → st.ctx.extras = [] → st.ctx.breadcrumbs = [] →
      st.ctx.user = none → (∀ e ∈ es, e.context = none) →
      st.queue.connected = true →
      (sendAll c st es).queue.cap = st.queue.cap ∧
      (sendAll c st es).queue.connected = true ∧
      (sendAll c st es).ctx = st.ctx ∧
      (sendAll c st es).queue.msgs =
        st.queue.msgs ++ (es.take (st.queue.cap - st.queue.msgs.length)).map
          (fun e => WorkerMsg.event (expectedEnvelope c e)) ∧
      (sendAll c st es).warnings =
        st.warnings ++ List.replicate
          (es.length - (st.queue.cap - st.queue.msgs.length)) fullWarning := by
  intro es
  induction es with
  | nil =>
      intro st _ _ _ _ _ hconn
      simp [sendAll, hconn]
  | cons e rest ih =>
      intro st htags hextras hbc huser hec hconn
      have hstep := sendEventC_plain c st e hbs henv hsvc htags hextras hbc
        huser (hec e (by simp))
      have hfold : sendAll c st (e :: rest) =
          sendAll c (enqueueC c st (fillSimple c e)) rest := by
        simp [sendAll, hstep]
      rw [hfold]
      have hexp : WorkerMsg.event (ε := HawkEvent)
          ⟨c.token, CATCHER_TYPE, fillSimple c e⟩ =
          WorkerMsg.event (expectedEnvelope c e) := rfl
      have hih := ih (enqueueC c st (fillSimple c e))
        (by rw [enqueueC_ctx]; exact htags)
        (by rw [enqueueC_ctx]; exact hextras)
        (by rw [enqueueC_ctx]; exact hbc)
        (by rw [enqueueC_ctx]; exact huser)
        (fun e2 he2 => hec e2 (by simp [he2]))
        (by rw [enqueueC_connected]; exact hconn)
      obtain ⟨hcap, hconn2, hctx2, hmsgs, hwarn⟩ := hih
      by_cases hroom : st.queue.msgs.length < st.queue.cap
      · obtain ⟨hm1, hw1⟩ := enqueueC_room c st (fillSimple c e) hconn hroom
        have hlen1 : (enqueueC c st (fillSimple c e)).queue.msgs.length =
            st.queue.msgs.length + 1 := by
          rw [hm1]
          simp
        refine ⟨by rw [hcap, enqueueC_cap], hconn2,
          by rw [hctx2, enqueueC_ctx], ?_, ?_⟩
        · rw [hmsgs, hlen1, hm1, enqueueC_cap, hexp]
          have hcnt : st.queue.cap - st.queue.msgs.length =
              (st.queue.cap - (st.queue.msgs.length + 1)) + 1 := by omega
          rw [hcnt, List.take_succ_cons, List.map_cons, List.append_assoc,
            List.singleton_append]
        · rw [hwarn, hw1, hlen1, enqueueC_cap]
          have hcnt : rest.length - (st.queue.cap -
              (st.queue.msgs.length + 1)) =
              (e :: rest).length - (st.queue.cap - st.queue.msgs.length) := by
            simp only [List.length_cons]
            omega
          rw [hcnt]
      · have hfull : st.queue.cap ≤ st.queue.msgs.length := Nat.not_lt.mp hroom
        obtain ⟨hq1, hw1⟩ := enqueueC_full c st (fillSimple c e) hconn hfull
        have hcnt0 : st.queue.cap - st.queue.msgs.length = 0 := by omega
        refine ⟨by rw [hcap, enqueueC_cap], hconn2,
          by rw [hctx2, enqueueC_ctx], ?_, ?_⟩
        · rw [hmsgs, hq1, hcnt0]
          simp
        · rw [hwarn, hw1, hq1, hcnt0]
          simp only [List.take_zero, List.length_cons, Nat.sub_zero,
            List.replicate_succ]
          rw [List.append_assoc, List.singleton_append]

theorem runLoop_append {ε : Type} (a b : List (WorkerMsg ε)) :
    runLoop (a ++ b) = runLoop a ++ runLoop b := by
  induction a with
  | nil => rfl
  | cons m rest ih => cases m <;> simp [runLoop, ih]

theorem runLoop_map_event {ε α : Type} (f : α → ε) (l : List α) :
    runLoop (l.map (fun e => WorkerMsg.event (f e))) =
      l.map (fun e => WorkerAction.sent (f e)) := by
  induction l with
  | nil => rfl
  | cons e rest ih => simp [runLoop, ih]

/-- Claim C1: the producer/consumer pipeline with backpressure-by-drop.
Sending N plain events through a callback-free client (empty ambient
context) with N ≤ capacity enqueues exactly the N expected envelopes in
order and logs no warning, and after `flush` the worker hands exactly
those N envelopes to the transport in enqueue order before any flush
marker is processed (when N < capacity the marker is enqueued and
notified right after the N hand-offs; at N = capacity the non-blocking
marker enqueue itself fails).  Sending capacity + K events enqueues
exactly the first `capacity` of them, drops the remaining K each with a
logged full-queue warning, and the worker delivers exactly those first
`capacity` envelopes in order.  `send_event` only ever uses the
non-blocking `try_send`, so the sender is never blocked. -/
theorem C1_pipeline_fifo_backpressure (c : ClientC) (es : List EventData)
    (cap sig : Nat) (notifyAt : Option Nat)
    (hbs : c.beforeSend = none) (henv : c.environment = none)
    (hsvc : c.service = none) (hec : ∀ e ∈ es, e.context = none) :
    (es.length ≤ cap →
      (sendAll c (startState cap) es).queue.msgs =
        es.map (fun e => WorkerMsg.event (expectedEnvelope c e)) ∧
      (sendAll c (startState cap) es).warnings = [] ∧
      runLoop ((flushC c (sendAll c (startState cap) es).queue sig
          notifyAt).2).msgs =
        es.map (fun e => WorkerAction.sent (expectedEnvelope c e)) ++
          (if es.length < cap then [WorkerAction.notified sig] else [])) ∧
    (∀ K, es.length = cap + K →
      (sendAll c (startState cap) es).queue.msgs =
        (es.take cap).map (fun e => WorkerMsg.event (expectedEnvelope c e)) ∧
      (sendAll c (startState cap) es).warnings =
        List.replicate K fullWarning ∧
      runLoop (sendAll c (startState cap) es).queue.msgs =
        (es.take cap).map (fun e => WorkerAction.sent (expectedEnvelope c e))) := by
  obtain ⟨hcap, hconn, hctx, hmsgs, hwarn⟩ :=
    sendAll_spec c hbs henv hsvc es (startState cap) rfl rfl rfl rfl hec rfl
  simp only [show (startState cap).queue.cap = cap from rfl,
    show (startState cap).queue.msgs = ([] : List (WorkerMsg HawkEvent)) from rfl,
    show (startState cap).warnings = ([] : List String) from rfl,
    List.length_nil, Nat.sub_zero, List.nil_append] at hcap hconn hctx hmsgs hwarn
  constructor
  · intro hle
    have htake : es.take cap = es := List.take_of_length_le hle
    have hm : (sendAll c (startState cap) es).queue.msgs =
        es.map (fun e => WorkerMsg.event (expectedEnvelope c e)) := by
      rw [hmsgs, htake]
    have hw : (sendAll c (startState cap) es).warnings = [] := by
      rw [hwarn]
      have : es.length - cap = 0 := by omega
      simp [this]
    refine ⟨hm, hw, ?_⟩
    have hlen : (sendAll c (startState cap) es).queue.msgs.length = es.length := by
      rw [hm]
      simp
    by_cases hlt : es.length < cap
    · have hnotfull : ¬ (sendAll c (startState cap) es).queue.cap ≤
          (sendAll c (startState cap) es).queue.msgs.length := by
        rw [hcap, hlen]
        omega
      simp only [flushC, trySend, hconn, Bool.not_true, Bool.false_eq_true,
        if_false, hnotfull, if_neg hnotfull]
      simp only [hm, hlt, if_pos hlt]
      rw [runLoop_append, runLoop_map_event]
      rfl
    · have hfull : (sendAll c (startState cap) es).queue.cap ≤
          (sendAll c (startState cap) es).queue.msgs.length := by
        rw [hcap, hlen]
        omega
      simp only [flushC, trySend, hconn, Bool.not_true, Bool.false_eq_true,
        if_false, if_pos hfull]
      simp only [hm, hlt, if_neg hlt]
      rw [runLoop_map_event]
      simp
  · intro K hK
    have hw : (sendAll c (startState cap) es).warnings =
        List.replicate K fullWarning := by
      rw [hwarn]
      have : es.length - cap = K := by omega
      rw [this]
    refine ⟨hmsgs, hw, ?_⟩
    rw [hmsgs, runLoop_map_event]

/-- Claim C1 (witness): two plain events through capacity 2 are both
enqueued as envelopes; through capacity 1 the second is dropped with one
full-queue warning. -/
theorem C1_pipeline_fifo_backpressure_witness :
    (sendAll clientSimpleW (startState 2) esW).queue.msgs =
      esW.map (fun e => WorkerMsg.event (expectedEnvelope clientSimpleW e)) ∧
    (sendAll clientSimpleW (startState 1) esW).warnings =
      List.replicate 1 fullWarning := by
  have hec : ∀ e ∈ esW, e.context = none := by
    intro e he
    simp only [esW, List.mem_cons, List.mem_singleton] at he
    rcases he with h | h | h
    · rw [h]; rfl
    · rw [h]; rfl
    · cases h
  have h2 := C1_pipeline_fifo_backpressure clientSimpleW esW 2 0 none
    rfl rfl rfl hec
  have h1 := C1_pipeline_fifo_backpressure clientSimpleW esW 1 0 none
    rfl rfl rfl hec
  exact ⟨(h2.1 (by decide)).1, (h1.2 1 (by decide)).2.1⟩

/-! ### Base64 codec lemmas -/

theorem b64Index_b64Char : ∀ n, n < 64 → b64Index (b64Char n) = some n := by
  decide

theorem b64Char_ne_pad : ∀ n, n < 64 → ¬ b64Char n = '=' := by
  decide

theorem b64_encode_decode_aux : ∀ (fuel : Nat) (bs : List Nat),
    bs.length ≤ fuel → (∀ b ∈ bs, b < 256) →
    b64DecodeBytes (b64EncodeBytes bs) = some bs := by
  intro fuel
  induction fuel with
  | zero =>
      intro bs hl _
      rcases bs with _ | ⟨a, bs1⟩
      · rfl
      · simp at hl
  | succ n ih =>
      intro bs hl hb
      rcases bs with _ | ⟨a, bs1⟩
      · rfl
      rcases bs1 with _ | ⟨b, bs2⟩
      · have ha : a < 256 := hb a (by simp)
        have h1 : b64Index (b64Char (a / 4)) = some (a / 4) :=
          b64Index_b64Char _ (by omega)
        have h2 : b64Index (b64Char (a % 4 * 16)) = some (a % 4 * 16) :=
          b64Index_b64Char _ (by omega)
        simp [b64EncodeBytes, b64DecodeBytes, h1, h2]
        omega
      rcases bs2 with _ | ⟨c2, rest⟩
      · have ha : a < 256 := hb a (by simp)
        have hb2 : b < 256 := hb b (by simp)
        have h1 : b64Index (b64Char (a / 4)) = some (a / 4) :=
          b64Index_b64Char _ (by omega)
        have h2 : b64Index (b64Char (a % 4 * 16 + b / 16)) =
            some (a % 4 * 16 + b / 16) := b64Index_b64Char _ (by omega)
        have h3 : b64Index (b64Char (b % 16 * 4)) = some (b % 16 * 4) :=
          b64Index_b64Char _ (by omega)
        have hne : ¬ b64Char (b % 16 * 4) = '=' := b64Char_ne_pad _ (by omega)
        simp [b64EncodeBytes, b64DecodeBytes, h1, h2, h3, hne]
        omega
      · have ha : a < 256 := hb a (by simp)
        have hb2 : b < 256 := hb b (by simp)
        have hc : c2 < 256 := hb c2 (by simp)
        have h1 : b64Index (b64Char (a / 4)) = some (a / 4) :=
          b64Index_b64Char _ (by omega)
        have h2 : b64Index (b64Char (a % 4 * 16 + b / 16)) =
            some (a % 4 * 16 + b / 16) := b64Index_b64Char _ (by omega)
        have h3 : b64Index (b64Char (b % 16 * 4 + c2 / 64)) =
            some (b % 16 * 4 + c2 / 64) := b64Index_b64Char _ (by omega)
        have h4 : b64Index (b64Char (c2 % 64)) = some (c2 % 64) :=
          b64Index_b64Char _ (by omega)
        have hne3 : ¬ b64Char (b % 16 * 4 + c2 / 64) = '=' :=
          b64Char_ne_pad _ (by omega)
        have hne4 : ¬ b64Char (c2 % 64) = '=' := b64Char_ne_pad _ (by omega)
        have hrest : b64DecodeBytes (b64EncodeBytes rest) = some rest := by
          apply ih rest (by simp at hl; omega)
          intro x hx
          exact hb x (by simp [hx])
        simp [b64EncodeBytes, b64DecodeBytes, h1, h2, h3, h4, hne3, hne4, hrest]
        omega

/-- STANDARD base64 decoding inverts encoding on byte lists. -/
theorem b64_encode_decode (bs : List Nat) (hb : ∀ b ∈ bs, b < 256) :
    b64DecodeBytes (b64EncodeBytes bs) = some bs :=
  b64_encode_decode_aux bs.length bs le_rfl hb

/-! ### JSON string escaping lemmas -/

theorem hexVal_hexDigit : ∀ n, n < 16 → hexVal (hexDigit n) = some n := by
  decide

theorem hexDigit_ascii : ∀ n, n < 16 → (hexDigit n).toNat < 128 := by
  decide

theorem escBody_cons (c : Char) (l : List Char) :
    escBody (c :: l) = escapeChar c ++ escBody l := rfl

theorem parseStringBody_escBody (l : List Char) :
    ∀ rest : List Char,
      parseStringBody (escBody l ++ ('"' :: rest)) = some (l, rest) := by
  induction l with
  | nil =>
      intro rest
      simp only [escBody, List.foldr_nil, List.nil_append]
      rw [parseStringBody.eq_def]
      simp
  | cons c l ih =>
      intro rest
      rw [escBody_cons, List.append_assoc]
      by_cases h1 : c = '"'
      · subst h1
        have he : escapeChar '"' = ['\\', '"'] := by decide
        rw [he]
        simp only [List.cons_append, List.nil_append]
        rw [parseStringBody.eq_def]
        simp [ih]
      · by_cases h2 : c = '\\'
        · subst h2
          have he : escapeChar '\\' = ['\\', '\\'] := by decide
          rw [he]
          simp only [List.cons_append, List.nil_append]
          rw [parseStringBody.eq_def]
          simp [ih]
        · by_cases h3 : c = '\n'
          · subst h3
            have he : escapeChar '\n' = ['\\', 'n'] := by decide
            rw [he]
            simp only [List.cons_append, List.nil_append]
            rw [parseStringBody.eq_def]
            simp [ih]
          · by_cases h4 : c = '\r'
            · subst h4
              have he : escapeChar '\r' = ['\\', 'r'] := by decide
              rw [he]
              simp only [List.cons_append, List.nil_append]
              rw [parseStringBody.eq_def]
              simp [ih]
            · by_cases h5 : c = '\t'
              · subst h5
                have he : escapeChar '\t' = ['\\', 't'] := by decide
                rw [he]
                simp only [List.cons_append, List.nil_append]
                rw [parseStringBody.eq_def]
                simp [ih]
              · by_cases h6 : c.toNat = 8
                · have hc : c = Char.ofNat 8 := by
                    rw [← h6, Char.ofNat_toNat]
                  subst hc
                  have he : escapeChar (Char.ofNat 8) = ['\\', 'b'] := by decide
                  rw [he]
                  simp only [List.cons_append, List.nil_append]
                  rw [parseStringBody.eq_def]
                  simp [ih]
                · by_cases h7 : c.toNat = 12
                  · have hc : c = Char.ofNat 12 := by
                      rw [← h7, Char.ofNat_toNat]
                    subst hc
                    have he : escapeChar (Char.ofNat 12) = ['\\', 'f'] := by
                      decide
                    rw [he]
                    simp only [List.cons_append, List.nil_append]
                    rw [parseStringBody.eq_def]
                    simp [ih]
                  · by_cases h8 : c.toNat < 32
                    · have he : escapeChar c = ['\\', 'u', '0', '0',
                          hexDigit (c.toNat / 16), hexDigit (c.toNat % 16)] := by
                        simp only [escapeChar]
                        rw [if_neg h1, if_neg h2, if_neg h3, if_neg h4,
                          if_neg h5, if_neg h6, if_neg h7, if_pos h8]
                      have hv1 : hexVal (hexDigit (c.toNat / 16)) =
                          some (c.toNat / 16) := hexVal_hexDigit _ (by omega)
                      have hv2 : hexVal (hexDigit (c.toNat % 16)) =
                          some (c.toNat % 16) := hexVal_hexDigit _ (by omega)
                      rw [he]
                      simp only [List.cons_append, List.nil_append]
                      rw [parseStringBody.eq_def]
                      have hv0 : hexVal '0' = some 0 := by decide
                      simp [hv0, hv1, hv2, ih]
                      rw [show c.toNat / 16 * 16 + c.toNat % 16 = c.toNat from
                        by omega]
                      simp [Char.ofNat_toNat]
                    · have he : escapeChar c = [c] := by
                        simp only [escapeChar]
                        rw [if_neg h1, if_neg h2, if_neg h3, if_neg h4,
                          if_neg h5, if_neg h6, if_neg h7, if_neg h8]
                      rw [he]
                      simp only [List.cons_append, List.nil_append]
                      rw [parseStringBody.eq_def]
                      simp [h1, h2, h8, ih]

theorem escapeChar_ascii (c : Char) (h : c.toNat < 128) :
    ∀ c2 ∈ escapeChar c, c2.toNat < 128 := by
  intro c2 hc2
  simp only [escapeChar] at hc2
  split_ifs at hc2 with h1 h2 h3 h4 h5 h6 h7 h8
  all_goals simp at hc2
  · rcases hc2 with rfl | rfl <;> decide
  · subst hc2
    decide
  · rcases hc2 with rfl | rfl <;> decide
  · rcases hc2 with rfl | rfl <;> decide
  · rcases hc2 with rfl | rfl <;> decide
  · rcases hc2 with rfl | rfl <;> decide
  · rcases hc2 with rfl | rfl <;> decide
  · rcases hc2 with rfl | rfl | rfl | rfl | rfl
    · decide
    · decide
    · decide
    · exact hexDigit_ascii _ (by omega)
    · exact hexDigit_ascii _ (by omega)
  · subst hc2
    exact h

theorem escBody_ascii (l : List Char) (h : ∀ c ∈ l, c.toNat < 128) :
    ∀ c2 ∈ escBody l, c2.toNat < 128 := by
  induction l with
  | nil => intro c2 hc2; simp [escBody] at hc2
  | cons c l ih =>
      intro c2 hc2
      rw [escBody_cons] at hc2
      rcases List.mem_append.mp hc2 with hm | hm
      · exact escapeChar_ascii c (h c (by simp)) c2 hm
      · exact ih (fun x hx => h x (by simp [hx])) c2 hm

theorem encodeJsonString_ascii (s : String) (h : ∀ c ∈ s.data, c.toNat < 128) :
    ∀ c2 ∈ encodeJsonString s, c2.toNat < 128 := by
  intro c2 hc2
  simp only [encodeJsonString, List.mem_cons, List.mem_append,
    List.mem_singleton] at hc2
  rcases hc2 with (rfl | hm) | rfl | hx
  · decide
  · exact escBody_ascii s.data h c2 hm
  · decide
  · simp at hx

theorem encodeTokenJson_ascii (i s : String)
    (hi : ∀ c ∈ i.data, c.toNat < 128) (hs : ∀ c ∈ s.data, c.toNat < 128) :
    ∀ c2 ∈ encodeTokenJson i s, c2.toNat < 128 := by
  simp only [encodeTokenJson, List.forall_mem_cons, List.forall_mem_append]
  exact ⟨by decide,
    ⟨⟨⟨⟨⟨⟨⟨by decide, by decide⟩, encodeJsonString_ascii i hi⟩, by decide⟩,
      by decide⟩, by decide⟩, encodeJsonString_ascii s hs⟩, by decide⟩⟩

theorem stringMk_data (s : String) : String.mk s.data = s := by
  cases s
  rfl

theorem skipWs_notws (c : Char) (l : List Char) (h : isJsonWs c = false) :
    skipWs (c :: l) = c :: l := by
  rw [skipWs.eq_def]
  simp [h]

theorem parseJsonString_encode (s : String) (rest : List Char) :
    parseJsonString (encodeJsonString s ++ rest) = some (s, rest) := by
  simp only [encodeJsonString, List.cons_append, List.append_assoc,
    List.singleton_append]
  rw [parseJsonString.eq_def]
  simp [parseStringBody_escBody, stringMk_data]

theorem parseJsonString_cons (l rest : List Char) :
    parseJsonString ('"' :: (escBody l ++ '"' :: rest)) =
      some (String.mk l, rest) := by
  rw [parseJsonString.eq_def]
  simp [parseStringBody_escBody]

/-- The canonical token object body parses back to its two members. -/
theorem parseMembersF_tokenBody (i s : String) (fuel : Nat) :
    parseMembersF (fuel + 2)
      (encodeJsonString "integrationId" ++ [':'] ++
        encodeJsonString i ++ [','] ++
        encodeJsonString "secret" ++ [':'] ++
        encodeJsonString s ++ ['}']) =
      some ([("integrationId", i), ("secret", s)], []) := by
  have hk1 : String.mk ['i','n','t','e','g','r','a','t','i','o','n','I','d']
      = "integrationId" := rfl
  have hk2 : String.mk ['s','e','c','r','e','t'] = "secret" := rfl
  simp only [encodeJsonString, List.cons_append, List.append_assoc,
    List.singleton_append]
  rw [parseMembersF.eq_def]
  simp only [skipWs_notws _ _ (by decide : isJsonWs '"' = false)]
  simp [parseJsonString_cons, skipWs_notws, isJsonWs, hk1, hk2, stringMk_data]
  rw [parseMembersF.eq_def]
  simp [parseJsonString_cons, skipWs_notws, isJsonWs, hk2, stringMk_data]

/-- The canonical token object body parses for any sufficient fuel. -/
theorem parseMembersF_tokenBody_ge (i s : String) (fuel : Nat) (hf : 2 ≤ fuel) :
    parseMembersF fuel
      (encodeJsonString "integrationId" ++ [':'] ++
        encodeJsonString i ++ [','] ++
        encodeJsonString "secret" ++ [':'] ++
        encodeJsonString s ++ ['}']) =
      some ([("integrationId", i), ("secret", s)], []) := by
  obtain ⟨f, rfl⟩ : ∃ f, fuel = f + 2 := ⟨fuel - 2, by omega⟩
  exact parseMembersF_tokenBody i s f

/-- `serde_json::from_slice` inverts `to_string` on the token struct. -/
theorem parseTokenJson_encodeTokenJson (i s : String) :
    parseTokenJson (encodeTokenJson i s) =
      some { integrationId := i, secret := s } := by
  rw [parseTokenJson.eq_def]
  simp only [encodeTokenJson]
  rw [skipWs_notws _ _ (by decide : isJsonWs '{' = false)]
  simp only [reduceIte]
  rw [parseMembersF_tokenBody_ge i s _ (by simp [encodeJsonString])]
  simp [skipWs, slookup]

theorem decodeToken_makeToken (i s : String)
    (hi : ∀ c ∈ i.data, c.toNat < 128) (hs : ∀ c ∈ s.data, c.toNat < 128) :
    decodeToken (makeToken i s) =
      if i = "" then
        Except.error "Invalid integration token: integrationId is empty"
      else Except.ok { integrationId := i, secret := s } := by
  have hbytes : ∀ b ∈ (encodeTokenJson i s).map Char.toNat, b < 256 := by
    intro b hb
    simp only [List.mem_map] at hb
    obtain ⟨c, hc, rfl⟩ := hb
    have := encodeTokenJson_ascii i s hi hs c hc
    omega
  have hdata : (makeToken i s).data =
      b64EncodeBytes ((encodeTokenJson i s).map Char.toNat) := rfl
  have hdec : b64DecodeBytes (makeToken i s).data =
      some ((encodeTokenJson i s).map Char.toNat) := by
    rw [hdata]
    exact b64_encode_decode _ hbytes
  have hmap : ((encodeTokenJson i s).map Char.toNat).map Char.ofNat =
      encodeTokenJson i s := by
    rw [List.map_map]
    simp [Function.comp_def, Char.ofNat_toNat]
  rw [decodeToken.eq_def, hdec]
  simp only [hmap, parseTokenJson_encodeTokenJson]

/-- Claim C9: for every valid token — the base64 encoding of the JSON
serialization of `{integrationId, secret}` with ASCII contents — with a
non-empty integration id `I`, `decode_token` recovers exactly `I` and
the secret, while an empty id makes it fail; `default_endpoint(I)` is
exactly `https://I.k1.hawk.so/`; and `decode_token` returns an error on
precisely those inputs whose base64 decoding fails, whose bytes do not
parse as JSON of that shape, or whose integration id is empty. -/
theorem C9_token_decode (i s : String)
    (hi : ∀ c ∈ i.data, c.toNat < 128) (hs : ∀ c ∈ s.data, c.toNat < 128) :
    (decodeToken (makeToken i s) =
      if i = "" then
        Except.error "Invalid integration token: integrationId is empty"
      else Except.ok { integrationId := i, secret := s }) ∧
    defaultEndpoint i = "https://" ++ i ++ ".k1.hawk.so/" ∧
    (∀ t : String, (∃ e, decodeToken t = Except.error e) ↔
      b64DecodeBytes t.data = none ∨
      (∃ bys, b64DecodeBytes t.data = some bys ∧
        parseTokenJson (bys.map Char.ofNat) = none) ∨
      (∃ bys d, b64DecodeBytes t.data = some bys ∧
        parseTokenJson (bys.map Char.ofNat) = some d ∧
        d.integrationId = "")) := by
  refine ⟨decodeToken_makeToken i s hi hs, ?_, ?_⟩
  · simp [defaultEndpoint]
  · intro t
    rw [decodeToken.eq_def]
    rcases hb : b64DecodeBytes t.data with _ | bys
    · simp
    · rcases hp : parseTokenJson (bys.map Char.ofNat) with _ | d
      · simp [hp]
      · by_cases hid : d.integrationId = ""
        · simp only [hp, hid, if_pos rfl]
          constructor
          · intro _
            exact Or.inr (Or.inr ⟨bys, d, rfl, hp, hid⟩)
          · intro _
            exact ⟨_, rfl⟩
        · simp only [hp, hid, if_neg hid]
          constructor
          · rintro ⟨e, he⟩
            exact Except.noConfusion he
          · rintro (hc | ⟨bys2, hc1, hc2⟩ | ⟨bys2, d2, hc1, hc2, hc3⟩)
            · exact Option.noConfusion hc
            · rw [← Option.some.inj hc1] at hc2
              rw [hp] at hc2
              exact Option.noConfusion hc2
            · rw [← Option.some.inj hc1] at hc2
              rw [hp] at hc2
              have hd := Option.some.inj hc2
              subst hd
              exact absurd hc3 hid

/-- Claim C9 (witness): the doc-comment token decodes to integration id
`abc` and secret `xyz`, and the derived endpoint is
`https://abc.k1.hawk.so/`. -/
theorem C9_token_decode_witness :
    decodeToken (makeToken "abc" "xyz") =
      Except.ok { integrationId := "abc", secret := "xyz" } ∧
    defaultEndpoint "abc" = "https://" ++ "abc" ++ ".k1.hawk.so/" := by
  have h := C9_token_decode "abc" "xyz" (by decide) (by decide)
  refine ⟨?_, h.2.1⟩
  rw [h.1]
  rfl

end Hawk
